import Mathlib

/-!
# Socket address layer of `sockets.c`

A shallow embedding of `sockets.c` (POSIX build, with `HAVE_IN6_SOCKETS` and
`HAVE_UNIX_SOCKETS` enabled): the `SockAddress` tagged union, its conversion to
and from the native `sockaddr_*` byte layouts, its equality test, the bounded
text formatters behind `sock_address_to_string`, name resolution, and the socket
primitives over a trace of native calls. The error normalisation of the `_WIN32`
build is embedded in the namespace `Win32`.

Conventions.
* Bytes are natural numbers below 256; a 16-bit or 32-bit field is a natural
  number below `2^16` or `2^32`.
* A native address buffer is a list of bytes, index 0 being the first byte of
  the structure.
* A C string is the list of its bytes before the terminating nul.
* `errno` is passed in and returned explicitly.
* Character memory used by the formatters is a map from addresses (integers)
  to bytes, so that a store before or after a buffer is visible.
-/

namespace Sockets

/-! ## Native constants

The system headers are not part of the sources; the values below are those of
Linux/glibc on a little-endian host. -/

/-- The value of `EINVAL`. -/
def EINVAL : Int := 22

/-- The value of `AF_LOCAL`. -/
def AF_LOCAL : Nat := 1

/-- The value of `AF_INET`. -/
def AF_INET : Nat := 2

/-- The value of `AF_INET6`. -/
def AF_INET6 : Nat := 10

/-- The value of `sizeof(struct sockaddr)`. -/
def sizeof_sockaddr : Nat := 16

/-- The value of `sizeof(struct sockaddr_in)`: family (2), port (2), address (4), padding (8). -/
def sizeof_sockaddr_in : Nat := 16

/-- The value of `sizeof(struct sockaddr_in6)`: family (2), port (2), flow info (4),
address (16), scope id (4). -/
def sizeof_sockaddr_in6 : Nat := 28

/-- The value of `offsetof(struct sockaddr_un, sun_path)`. -/
def offsetof_sun_path : Nat := 2

/-- The value of `sizeof(((struct sockaddr_un*)0)->sun_path)`. -/
def sizeof_sun_path : Nat := 108

/-- The value of `sizeof(struct sockaddr_un)`. -/
def sizeof_sockaddr_un : Nat := offsetof_sun_path + sizeof_sun_path

/-- The macro `UNIX_PATH_MAX` as `sockets.c` defines it when `<sys/un.h>` does not. -/
def UNIX_PATH_MAX : Nat := sizeof_sun_path - 1

/-! ## Address values -/

/-- The enumeration `SocketFamily`: the three tags that `sockets.c` names, and
`other` for any other value of the type (the `default:` case of a switch). -/
inductive SocketFamily
  | SOCKET_INET
  | SOCKET_IN6
  | SOCKET_UNIX
  | other (value : Int)
  deriving DecidableEq, Repr

/-- The tagged union `SockAddress`: `u.inet` is a 32-bit address and a 16-bit port,
`u.in6` is 16 address bytes and a 16-bit port, `u._unix` is a C string and the
`owner` flag. The family tag is the constructor; a structure whose tag is none of the
three, for which the functions below take their `default:` branch, is not a value of
this type. -/
inductive SockAddress
  | inet (address : Nat) (port : Nat)
  | in6 (address : List Nat) (port : Nat)
  | unix (path : List Nat) (owner : Bool)
  deriving DecidableEq, Repr

/-- The field `a->family`. -/
def SockAddress.family : SockAddress → SocketFamily
  | .inet _ _ => .SOCKET_INET
  | .in6 _ _ => .SOCKET_IN6
  | .unix _ _ => .SOCKET_UNIX

/-- The ranges of the fields of a `SockAddress`: `uint32_t` address and `uint16_t`
port, 16 `uint8_t` address bytes, and a path that is a C string (no nul inside). -/
def SockAddress.wf : SockAddress → Prop
  | .inet address port => address < 2 ^ 32 ∧ port < 2 ^ 16
  | .in6 address port => address.length = 16 ∧ (∀ b ∈ address, b < 256) ∧ port < 2 ^ 16
  | .unix path _ => ∀ b ∈ path, 0 < b ∧ b < 256

instance : DecidablePred SockAddress.wf := fun a => by
  cases a <;> unfold SockAddress.wf <;> infer_instance

/-- The function `socket_family_to_bsd`. -/
def socket_family_to_bsd : SocketFamily → Int
  | .SOCKET_INET => AF_INET
  | .SOCKET_IN6 => AF_INET6
  | .SOCKET_UNIX => AF_LOCAL
  | .other _ => -1

/-- The bytes of a C string held in a byte array: everything before the first nul. -/
def c_str (bytes : List Nat) : List Nat :=
  bytes.takeWhile (fun b => b != 0)

/-- The function `strlen` on a byte array holding a C string. -/
def strlen (bytes : List Nat) : Nat :=
  (c_str bytes).length

/-- The function `strdup`: a fresh copy of the C string. -/
def strdup (bytes : List Nat) : List Nat :=
  c_str bytes

/-- The function `sock_address_init_inet`. -/
def sock_address_init_inet (_a : SockAddress) (ip : Nat) (port : Nat) : SockAddress :=
  .inet ip port

/-- The function `sock_address_init_in6`: copies 16 bytes from `ip6`. -/
def sock_address_init_in6 (_a : SockAddress) (ip6 : List Nat) (port : Nat) : SockAddress :=
  .in6 (ip6.take 16) port

/-- The function `sock_address_init_unix`; `none` is the null pointer. -/
def sock_address_init_unix (_a : SockAddress) (path : Option (List Nat)) : SockAddress :=
  .unix (strdup (match path with | some p => p | none => [])) true

/-- The function `memcmp(x, y, n) == 0`. -/
def memcmp_eq (x y : List Nat) (n : Nat) : Bool :=
  x.take n == y.take n

/-- The function `strcmp(x, y) == 0`. -/
def strcmp_eq (x y : List Nat) : Bool :=
  c_str x == c_str y

/-- The function `sock_address_equal`; `true` is a non-zero result. -/
def sock_address_equal (a b : SockAddress) : Bool :=
  if a.family ≠ b.family then false
  else
    match a, b with
    | .inet aa ap, .inet ba bp => aa == ba && ap == bp
    | .in6 aa ap, .in6 ba bp => memcmp_eq aa ba 16 && ap == bp
    | .unix apath _, .unix bpath _ => strcmp_eq apath bpath
    | _, _ => false

/-! ## Conversion to and from native addresses -/

/-- The function `_set_errno` of the POSIX build: the result and the new `errno`. -/
def _set_errno (code : Int) (_errno : Int) : Int × Int :=
  (-1, code)

/-- The bytes in memory of a 16-bit value in host (little-endian) order. -/
def host16 (v : Nat) : List Nat :=
  [v % 256, v / 256 % 256]

/-- The bytes in memory of `htons(v)`. -/
def htons_bytes (v : Nat) : List Nat :=
  [v / 256 % 256, v % 256]

/-- The bytes in memory of `htonl(v)`. -/
def htonl_bytes (v : Nat) : List Nat :=
  [v / 2 ^ 24 % 256, v / 2 ^ 16 % 256, v / 2 ^ 8 % 256, v % 256]

/-- The function `memset(p, v, n)` on the memory at `p`. -/
def memset (m : List Nat) (v : Nat) (n : Nat) : List Nat :=
  List.replicate n v ++ m.drop n

/-- The store of the bytes `bs` at offset `off` of the memory `m` (an assignment
to a field, or `memcpy` into it). -/
def store_at (m : List Nat) (off : Nat) (bs : List Nat) : List Nat :=
  m.take off ++ bs ++ m.drop (off + bs.length)

/-- The byte at index `i` of a buffer. -/
def byte_at (m : List Nat) (i : Nat) : Nat :=
  m.getD i 0

/-- The outcome of `sock_address_to_bsd`: the return value, the memory at
`paddress`, the value of `*psize` and `errno`. -/
structure ToBsd where
  ret : Int
  paddress : List Nat
  psize : Nat
  errno : Int
  deriving DecidableEq, Repr

/-- The function `sock_address_to_bsd`. `paddress` is the memory at the destination
pointer before the call, `psize` the previous value of `*psize`. The length `slen` of
a path is taken to fit an `int`. -/
def sock_address_to_bsd (a : SockAddress) (paddress : List Nat) (psize : Nat)
    (errno : Int) : ToBsd :=
  match a with
  | .inet address port =>
      let psize := sizeof_sockaddr_in
      let m := memset paddress 0 psize
      let m := store_at m 0 (host16 AF_INET)
      let m := store_at m 2 (htons_bytes port)
      let m := store_at m 4 (htonl_bytes address)
      { ret := 0, paddress := m, psize := psize, errno := errno }
  | .in6 address port =>
      let psize := sizeof_sockaddr_in6
      let m := memset paddress 0 psize
      let m := store_at m 0 (host16 AF_INET6)
      let m := store_at m 2 (htons_bytes port)
      let m := store_at m 8 (address.take 16)
      { ret := 0, paddress := m, psize := psize, errno := errno }
  | .unix path _ =>
      let slen := strlen path
      if slen ≥ UNIX_PATH_MAX then
        { ret := -1, paddress := paddress, psize := psize, errno := errno }
      else
        let m := memset paddress 0 sizeof_sockaddr_un
        let m := store_at m 0 (host16 AF_LOCAL)
        let m := store_at m offsetof_sun_path (path.take slen)
        let m := store_at m (offsetof_sun_path + slen) [0]
        { ret := 0, paddress := m, psize := offsetof_sun_path + slen + 1, errno := errno }

/-- The outcome of `sock_address_from_bsd`: the return value, the value of `*a`
and `errno`. -/
structure FromBsd where
  ret : Int
  a : SockAddress
  errno : Int
  deriving DecidableEq, Repr

/-- The field `sa_family` of the native address at `src`. -/
def sa_family (src : List Nat) : Nat :=
  byte_at src 0 + 256 * byte_at src 1

/-- The array `sun_path` as far as `memchr(src->sun_path, 0, UNIX_PATH_MAX)` scans it. -/
def sun_path_scan (src : List Nat) : List Nat :=
  (src.drop offsetof_sun_path).take UNIX_PATH_MAX

/-- The function `sock_address_from_bsd`. `a` is the previous value of the output,
`src` the memory at `from`, which is expected to hold at least `fromlen` bytes. -/
def sock_address_from_bsd (a : SockAddress) (src : List Nat) (fromlen : Nat)
    (errno : Int) : FromBsd :=
  let fam := sa_family src
  if fam = AF_INET then
    if fromlen < sizeof_sockaddr_in then
      let r := _set_errno EINVAL errno
      { ret := r.1, a := a, errno := r.2 }
    else
      let port := byte_at src 2 * 256 + byte_at src 3
      let address := byte_at src 4 * 2 ^ 24 + byte_at src 5 * 2 ^ 16
                      + byte_at src 6 * 2 ^ 8 + byte_at src 7
      { ret := 0, a := .inet address port, errno := errno }
  else if fam = AF_INET6 then
    if fromlen < sizeof_sockaddr_in6 then
      let r := _set_errno EINVAL errno
      { ret := r.1, a := a, errno := r.2 }
    else
      let port := byte_at src 2 * 256 + byte_at src 3
      let address := (List.range 16).map (fun i => byte_at src (8 + i))
      { ret := 0, a := .in6 address port, errno := errno }
  else if fam = AF_LOCAL then
    if fromlen < sizeof_sockaddr_un then
      let r := _set_errno EINVAL errno
      { ret := r.1, a := a, errno := r.2 }
    else if 0 ∉ sun_path_scan src then
      let r := _set_errno EINVAL errno
      { ret := r.1, a := a, errno := r.2 }
    else
      { ret := 0, a := .unix (strdup (src.drop offsetof_sun_path)) true, errno := errno }
  else
    let r := _set_errno EINVAL errno
    { ret := r.1, a := a, errno := r.2 }

/-! ## Bounded text formatting -/

/-- Character memory: the byte stored at each address. -/
abbrev Mem := Int → Nat

/-- The store `*p = v` of a `char`. -/
def Mem.store (m : Mem) (p : Int) (v : Nat) : Mem :=
  fun q => if q = p then v % 256 else m q

/-- The function `memcpy(dst, src, n)` into character memory. -/
def Mem.memcpy (m : Mem) (dst : Int) (src : List Nat) (n : Nat) : Mem :=
  fun q => if dst ≤ q ∧ q < dst + n then byte_at src (q - dst).toNat else m q

/-- The C string found at address `p`, reading at most `n` bytes. -/
def c_str_at (m : Mem) (p : Int) : Nat → List Nat
  | 0 => []
  | n + 1 => if m p = 0 then [] else m p :: c_str_at m (p + 1) n

/-- The function `format_char`: the memory and the returned position. -/
def format_char (m : Mem) (buf end_ : Int) (c : Nat) : Mem × Int :=
  if buf < end_ then
    if buf + 1 = end_ then
      (m.store buf 0, buf + 1)
    else
      ((m.store buf c).store (buf + 1) 0, buf + 1)
  else
    (m, buf)

/-- The function `format_str`. The `int` values `len` and `avail` are integers; the
size given to `memcpy` is `len`, which is not negative when `buf` is not beyond
`end_`. -/
def format_str (m : Mem) (buf end_ : Int) (str : List Nat) : Mem × Int :=
  let len : Int := strlen str
  let avail : Int := end_ - buf
  let len := if len > avail then avail else len
  let m := m.memcpy buf str len.toNat
  let buf := buf + len
  if buf = end_ then
    (m.store (buf - 1) 0, buf)
  else
    (m.store buf 0, buf)

/-- The first loop of `format_unsigned`: the entries `temp[0..nn)`, least
significant digit first. The first argument bounds the number of iterations. -/
def format_unsigned_temp : Nat → Nat → List Nat
  | 0, _ => []
  | fuel + 1, val =>
      if val = 0 then []
      else
        let rem := val % 10
        (48 + rem) :: format_unsigned_temp fuel (val / 10)

/-- The last loop of `format_unsigned`: `while (nn > 0) buf = format_char(buf, end, temp[--nn])`. -/
def format_unsigned_out (temp : List Nat) (end_ : Int) : Nat → Mem → Int → Mem × Int
  | 0, m, buf => (m, buf)
  | nn + 1, m, buf =>
      let r := format_char m buf end_ (byte_at temp nn)
      format_unsigned_out temp end_ nn r.1 r.2

/-- The function `format_unsigned`; `val` is converted to `unsigned`. -/
def format_unsigned (m : Mem) (buf end_ : Int) (val : Nat) : Mem × Int :=
  let val := val % 2 ^ 32
  let temp := format_unsigned_temp val val
  let temp := if temp.length = 0 then [48] else temp
  format_unsigned_out temp end_ temp.length m buf

/-- The table `hex` of `format_hex`: the characters of "0123456789abcdef". -/
def hex : List Nat :=
  [48, 49, 50, 51, 52, 53, 54, 55, 56, 57, 97, 98, 99, 100, 101, 102]

/-- The loop of `format_hex`; the counter `k + 1` stands for `shift = 4 * k`. -/
def format_hex_loop (end_ : Int) (val : Nat) : Nat → Mem → Int → Mem × Int
  | 0, m, buf => (m, buf)
  | k + 1, m, buf =>
      let shift := 4 * k
      let r := format_char m buf end_ (byte_at hex ((val >>> shift) &&& 15))
      format_hex_loop end_ val k r.1 r.2

/-- The function `format_hex`: `shift` runs from `4 * ndigits` down to 0. -/
def format_hex (m : Mem) (buf end_ : Int) (val : Nat) (ndigits : Nat) : Mem × Int :=
  format_hex_loop end_ (val % 2 ^ 32) (ndigits + 1) m buf

/-- The function `format_ip4`. -/
def format_ip4 (m : Mem) (buf end_ : Int) (ip : Nat) : Mem × Int :=
  let r := format_unsigned m buf end_ (ip >>> 24)
  let r := format_char r.1 r.2 end_ 46
  let r := format_unsigned r.1 r.2 end_ ((ip >>> 16) &&& 255)
  let r := format_char r.1 r.2 end_ 46
  let r := format_unsigned r.1 r.2 end_ ((ip >>> 8) &&& 255)
  let r := format_char r.1 r.2 end_ 46
  format_unsigned r.1 r.2 end_ (ip &&& 255)

/-- The loop of `format_ip6`: `k` iterations remain, `nn` is the loop counter and
`ip6` the bytes at the advancing pointer. -/
def format_ip6_loop (end_ : Int) : Nat → Nat → List Nat → Mem → Int → Mem × Int
  | 0, _, _, m, buf => (m, buf)
  | k + 1, nn, ip6, m, buf =>
      let val := (byte_at ip6 0 <<< 16) ||| byte_at ip6 1
      let r := if nn > 0 then format_char m buf end_ 58 else (m, buf)
      let r := if val = 0 then r else format_hex r.1 r.2 end_ val 4
      format_ip6_loop end_ k (nn + 1) (ip6.drop 2) r.1 r.2

/-- The function `format_ip6`. -/
def format_ip6 (m : Mem) (buf end_ : Int) (ip6 : List Nat) : Mem × Int :=
  format_ip6_loop end_ 8 0 ip6 m buf

/-- The switch of `sock_address_to_string`, run on a buffer from `buf` to `end_`:
the memory and the final value of the local `buf`. -/
def sock_address_to_string_switch (m : Mem) (buf end_ : Int) (a : SockAddress) : Mem × Int :=
  match a with
  | .inet address port =>
      let r := format_ip4 m buf end_ address
      let r := format_char r.1 r.2 end_ 58
      format_unsigned r.1 r.2 end_ port
  | .in6 address port =>
      let r := format_ip6 m buf end_ address
      let r := format_char r.1 r.2 end_ 58
      format_unsigned r.1 r.2 end_ port
  | .unix path _ =>
      format_str m buf end_ path

/-- The function `sock_address_to_string`: the memory after the call and the
returned pointer. `buf0` is the address of the static buffer, whose size
`MAX_PATH` comes from a header that is not part of the sources. -/
def sock_address_to_string (MAX_PATH : Nat) (buf0 : Int) (m : Mem) (a : SockAddress) :
    Mem × Int :=
  let r := sock_address_to_string_switch m buf0 (buf0 + MAX_PATH) a
  (r.1, buf0)

/-- The string that a caller of `sock_address_to_string` reads at the returned pointer. -/
def sock_address_to_string_result (MAX_PATH : Nat) (buf0 : Int) (m : Mem) (a : SockAddress) :
    List Nat :=
  let r := sock_address_to_string MAX_PATH buf0 m a
  c_str_at r.1 r.2 MAX_PATH

/-! ## The text behind the formatters

The characters that each formatter hands to `format_char`, in order, and the
predicates used to state that a formatter stays inside its buffer. -/

/-- A run of `format_char` calls, one for each character of a list, in order. -/
def format_chars (end_ : Int) : List Nat → Mem → Int → Mem × Int
  | [], m, buf => (m, buf)
  | c :: cs, m, buf =>
      let r := format_char m buf end_ c
      format_chars end_ cs r.1 r.2

/-- The characters that `format_unsigned` passes to `format_char`: the entries of
`temp` from the last one down to the first. -/
def unsigned_text (val : Nat) : List Nat :=
  let val := val % 2 ^ 32
  let temp := format_unsigned_temp val val
  let temp := if temp.length = 0 then [48] else temp
  temp.reverse

/-- The characters that the loop of `format_hex` passes to `format_char`. -/
def hex_text_loop (val : Nat) : Nat → List Nat
  | 0 => []
  | k + 1 => byte_at hex ((val >>> (4 * k)) &&& 15) :: hex_text_loop val k

/-- The characters that `format_hex` passes to `format_char`. -/
def hex_text (val : Nat) (ndigits : Nat) : List Nat :=
  hex_text_loop (val % 2 ^ 32) (ndigits + 1)

/-- The characters that `format_ip4` prints. -/
def ip4_text (ip : Nat) : List Nat :=
  unsigned_text (ip >>> 24) ++ [46] ++ unsigned_text ((ip >>> 16) &&& 255) ++ [46]
    ++ unsigned_text ((ip >>> 8) &&& 255) ++ [46] ++ unsigned_text (ip &&& 255)

/-- The characters that one iteration of `format_ip6` prints for the byte pair
`b0`, `b1`, the separator apart. -/
def ip6_group_text (b0 b1 : Nat) : List Nat :=
  let val := (b0 <<< 16) ||| b1
  if val = 0 then [] else hex_text val 4

/-- The characters that the loop of `format_ip6` prints. -/
def ip6_text_loop : Nat → Nat → List Nat → List Nat
  | 0, _, _ => []
  | k + 1, nn, ip6 =>
      (if nn > 0 then [58] else []) ++ ip6_group_text (byte_at ip6 0) (byte_at ip6 1)
        ++ ip6_text_loop k (nn + 1) (ip6.drop 2)

/-- The characters that `format_ip6` prints. -/
def ip6_text (ip6 : List Nat) : List Nat :=
  ip6_text_loop 8 0 ip6

/-- The text that `sock_address_to_string` formats for an address value. -/
def sock_address_text : SockAddress → List Nat
  | .inet address port => ip4_text address ++ [58] ++ unsigned_text port
  | .in6 address port => ip6_text address ++ [58] ++ unsigned_text port
  | .unix path _ => c_str path

/-- Decimal notation without leading zeros, as character codes; zero is "0". -/
def decimal (v : Nat) : List Nat :=
  if v = 0 then [48] else ((Nat.digits 10 v).reverse.map (fun d => 48 + d))

/-- No byte outside the buffer of `n` bytes at `s` differs between `m0` and `m`. -/
def same_outside (s : Int) (n : Nat) (m0 m : Mem) : Prop :=
  ∀ q : Int, q < s ∨ s + n ≤ q → m q = m0 q

/-- A position inside the buffer of `n` bytes at `s` from which a formatter may
continue: when the position is the end of the buffer, the last byte is a nul. -/
def step_ready (s : Int) (n : Nat) (m : Mem) (buf : Int) : Prop :=
  s ≤ buf ∧ buf ≤ s + n ∧ (buf = s + n → m (s + n - 1) = 0)

/-- The state after a formatter step: the position is between the start and the end
of the buffer and a nul byte sits at the position, or in the last byte of the buffer
when the position is the end. -/
def terminated (s : Int) (n : Nat) (r : Mem × Int) : Prop :=
  s ≤ r.2 ∧ r.2 ≤ s + n ∧ r.1 (min r.2 (s + n - 1)) = 0

/-- The state reached from memory `m0` and the start `s` of a buffer of `n` bytes
once the characters `t` have gone through `format_char`: the position, the bytes
outside the buffer, the characters stored, and the nul that follows them. -/
def emitted (m0 : Mem) (s : Int) (n : Nat) (t : List Nat) (r : Mem × Int) : Prop :=
  r.2 = s + min t.length n ∧ same_outside s n m0 r.1 ∧
  (∀ i : Nat, i < t.length → i + 1 < n → r.1 (s + i) = byte_at t i) ∧
  (t ≠ [] → r.1 (s + min t.length (n - 1)) = 0)

/-! ## Ports, release and name resolution -/

/-- The value of `ENOENT`. -/
def ENOENT : Int := 2

/-- The value of `ENOMEM`. -/
def ENOMEM : Int := 12

/-- The value of `EHOSTDOWN`. -/
def EHOSTDOWN : Int := 112

/-- The value of `AF_UNSPEC`. -/
def AF_UNSPEC : Nat := 0

/-- The value of `EAI_NONAME`. -/
def EAI_NONAME : Int := -2

/-- The value of `EAI_AGAIN`. -/
def EAI_AGAIN : Int := -3

/-- The value of `EAI_FAIL`. -/
def EAI_FAIL : Int := -4

/-- The value of `EAI_NODATA`, which glibc defines under `_GNU_SOURCE`. -/
def EAI_NODATA : Int := -5

/-- The value of `EAI_MEMORY`. -/
def EAI_MEMORY : Int := -10

/-- The function `sock_address_get_port`. -/
def sock_address_get_port (a : SockAddress) : Int :=
  match a with
  | .inet _ port => port
  | .in6 _ port => port
  | _ => -1

/-- The function `sock_address_set_port`; `port` is a `uint16_t`. -/
def sock_address_set_port (a : SockAddress) (port : Nat) : SockAddress :=
  match a with
  | .inet address _ => .inet address port
  | .in6 address _ => .in6 address port
  | _ => a

/-- The function `sock_address_done`: the value afterwards and the strings handed
to `free`, in order. -/
def sock_address_done (a : SockAddress) : SockAddress × List (List Nat) :=
  match a with
  | .unix path true => (.unix path false, [path])
  | _ => (a, [])

/-- A run of `n` calls of `sock_address_done` on the same value: the value
afterwards and all the strings handed to `free`. -/
def sock_address_done_times : Nat → SockAddress → SockAddress × List (List Nat)
  | 0, a => (a, [])
  | n + 1, a =>
      let r := sock_address_done a
      let r2 := sock_address_done_times n r.1
      (r2.1, r.2 ++ r2.2)

/-- An entry of the list that `getaddrinfo` returns: the fields that
`sock_address_init_resolve` reads. -/
structure addrinfo where
  ai_family : Nat
  ai_addr : List Nat
  ai_addrlen : Nat
  deriving DecidableEq, Repr

/-- The system resolver `getaddrinfo(node, service, hints, &res)` as far as it is
used: from the host name, the service name (`none` is `NULL`) and `hints->ai_family`
to the return code and the result list. -/
abbrev Resolver := List Nat → Option (List Nat) → Nat → Int × List addrinfo

/-- The loop of `sock_address_init_resolve` over the result list, from the current
values of `res_ipv4` and `res_ipv6` to their final values. -/
def resolve_scan (preferIn6 : Bool) :
    List addrinfo → Option addrinfo → Option addrinfo → Option addrinfo × Option addrinfo
  | [], res_ipv4, res_ipv6 => (res_ipv4, res_ipv6)
  | r :: rest, res_ipv4, res_ipv6 =>
      if r.ai_family = AF_INET ∧ res_ipv4 = none then
        if !preferIn6 then (some r, res_ipv6)
        else resolve_scan preferIn6 rest (some r) res_ipv6
      else if r.ai_family = AF_INET6 ∧ res_ipv6 = none then
        if preferIn6 then (res_ipv4, some r)
        else resolve_scan preferIn6 rest res_ipv4 (some r)
      else resolve_scan preferIn6 rest res_ipv4 res_ipv6

/-- The choice of `r` after the loop of `sock_address_init_resolve`. -/
def resolve_select (preferIn6 : Bool) (res_ipv4 res_ipv6 : Option addrinfo) :
    Option addrinfo :=
  if preferIn6 then
    match res_ipv6 with
    | some r => some r
    | none => res_ipv4
  else
    match res_ipv4 with
    | some r => some r
    | none => res_ipv6

/-- The function `sock_address_init_resolve`. `a` is the previous value of the
output; the result holds the return value, the output and `errno`. -/
def sock_address_init_resolve (getaddrinfo : Resolver) (a : SockAddress)
    (hostname : List Nat) (port : Nat) (preferIn6 : Bool) (errno : Int) : FromBsd :=
  let hints_ai_family := if preferIn6 then AF_INET6 else AF_UNSPEC
  let g := getaddrinfo hostname none hints_ai_family
  let ret := g.1
  let res := g.2
  if ret ≠ 0 then
    let err :=
      if ret = EAI_AGAIN ∨ ret = EAI_FAIL then EHOSTDOWN
      else if ret = EAI_NODATA ∨ ret = EAI_NONAME then ENOENT
      else if ret = EAI_MEMORY then ENOMEM
      else EINVAL
    let e := _set_errno err errno
    { ret := e.1, a := a, errno := e.2 }
  else
    let s := resolve_scan preferIn6 res none none
    match resolve_select preferIn6 s.1 s.2 with
    | none =>
        let e := _set_errno ENOENT errno
        { ret := e.1, a := a, errno := e.2 }
    | some r =>
        let f := sock_address_from_bsd a r.ai_addr r.ai_addrlen errno
        if f.ret < 0 then f
        else
          let a2 :=
            match f.a with
            | .inet address _ => SockAddress.inet address port
            | .in6 address _ => SockAddress.in6 address port
            | other => other
          { ret := f.ret, a := a2, errno := f.errno }

/-- The first entry of a resolver list with the given `ai_family`. -/
def first_of_family (family : Nat) (res : List addrinfo) : Option addrinfo :=
  res.find? (fun r => r.ai_family = family)

/-- An entry as the resolver produces it: the address carries the family of the entry
and its length covers the structure of that family. -/
def addrinfo.wf (r : addrinfo) : Prop :=
  sa_family r.ai_addr = r.ai_family ∧
  (r.ai_family = AF_INET → sizeof_sockaddr_in ≤ r.ai_addrlen) ∧
  (r.ai_family = AF_INET6 → sizeof_sockaddr_in6 ≤ r.ai_addrlen)

instance : DecidablePred addrinfo.wf := fun r => by
  unfold addrinfo.wf; infer_instance

/-- The first of two optional entries that is present. -/
def first_present (x y : Option addrinfo) : Option addrinfo :=
  match x with
  | some r => some r
  | none => y

/-- The entry that the resolution policy prefers: the first IPv6 entry, else the
first IPv4 entry, when IPv6 is preferred; the first IPv4 entry, else the first IPv6
entry, otherwise. -/
def preferred_entry (preferIn6 : Bool) (res : List addrinfo) : Option addrinfo :=
  if preferIn6 then
    first_present (first_of_family AF_INET6 res) (first_of_family AF_INET res)
  else
    first_present (first_of_family AF_INET res) (first_of_family AF_INET6 res)

/-! ## Socket primitives over a trace of native calls

The native calls (`socket`, `bind`, `listen`, `accept`, `setsockopt`, `shutdown`,
`close`) belong to the operating system. A `World` records the calls made so far and
holds the answers that the system will give to the next calls, in order; once the
list of answers is used up, a call succeeds with 0 and leaves `errno` alone. Every
finite run of the code is covered by a long enough list of answers. -/

/-- The value of `EINTR`. -/
def EINTR : Int := 4

/-- The value of `SOCK_STREAM`. -/
def SOCK_STREAM : Int := 1

/-- The value of `SOCK_DGRAM`. -/
def SOCK_DGRAM : Int := 2

/-- The value of `SOL_SOCKET`. -/
def SOL_SOCKET : Int := 1

/-- The value of `SO_REUSEADDR`. -/
def SO_REUSEADDR : Int := 2

/-- The value of `SHUT_RDWR`. -/
def SHUT_RDWR : Int := 2

/-- The enumeration `SocketType`: the two tags that `sockets.c` names, and `other`
for any other value of the type. -/
inductive SocketType
  | SOCKET_DGRAM
  | SOCKET_STREAM
  | other (value : Int)
  deriving DecidableEq, Repr

/-- The function `socket_type_to_bsd`. -/
def socket_type_to_bsd : SocketType → Int
  | .SOCKET_DGRAM => SOCK_DGRAM
  | .SOCKET_STREAM => SOCK_STREAM
  | .other _ => -1

/-- A native call with its arguments; an address argument is given by the bytes
handed to the system. -/
inductive NativeCall
  | socket (domain type protocol : Int)
  | setsockopt (fd level optname value : Int)
  | bind (fd : Int) (addr : List Nat) (addrlen : Nat)
  | listen (fd backlog : Int)
  | accept (fd : Int)
  | shutdown (fd how : Int)
  | close (fd : Int)
  | qemu_set_fd_handler (fd : Int)
  deriving DecidableEq, Repr

/-- The answer of the system to a native call: the return value, the value of
`errno` after the call and, for `accept`, the memory at the address argument and the
length written back. -/
structure NativeResult where
  ret : Int
  errno : Int
  addr : List Nat
  addrlen : Nat
  deriving DecidableEq, Repr

/-- The state around the socket primitives: `errno`, the native calls made so far
and the answers to the calls to come. -/
structure World where
  errno : Int
  trace : List NativeCall
  pending : List NativeResult
  deriving DecidableEq, Repr

/-- One native call: it is appended to the trace and takes the next answer. -/
def World.call (w : World) (c : NativeCall) : NativeResult × World :=
  match w.pending with
  | [] =>
      ({ ret := 0, errno := w.errno, addr := [], addrlen := 0 },
       { w with trace := w.trace ++ [c] })
  | r :: rest => (r, { errno := r.errno, trace := w.trace ++ [c], pending := rest })

/-- The loop `do { _ret = (_cmd); } while ( _ret < 0 && errno == EINTR )` of
`QSOCKET_CALL`; the first argument bounds the number of repetitions. -/
def QSOCKET_CALL_loop (c : NativeCall) : Nat → World → NativeResult × World
  | 0, w => w.call c
  | fuel + 1, w =>
      let r := w.call c
      if r.1.ret < 0 ∧ r.2.errno = EINTR then QSOCKET_CALL_loop c fuel r.2 else r

/-- The macro `QSOCKET_CALL` of the POSIX build: `errno = 0`, then the loop. Each
repetition uses up one answer, and a call without an answer left succeeds, so the
number of answers left bounds the repetitions. -/
def QSOCKET_CALL (c : NativeCall) (w : World) : NativeResult × World :=
  QSOCKET_CALL_loop c w.pending.length { w with errno := 0 }

/-- The function `_fix_errno` of the POSIX build: the result and the new `errno`. -/
def _fix_errno (errno : Int) : Int × Int :=
  (-1, errno)

/-- The macro `SOCKET_CALL` of the POSIX build. -/
def SOCKET_CALL (c : NativeCall) (w : World) : Int × World :=
  let r := QSOCKET_CALL c w
  if r.1.ret < 0 then
    let e := _fix_errno r.2.errno
    (e.1, { r.2 with errno := e.2 })
  else (r.1.ret, r.2)

/-- The function `socket_create`. -/
def socket_create (family : SocketFamily) (type : SocketType) (w : World) : Int × World :=
  let sfamily := socket_family_to_bsd family
  let stype := socket_type_to_bsd type
  if sfamily < 0 ∨ stype < 0 then
    let e := _set_errno EINVAL w.errno
    (e.1, { w with errno := e.2 })
  else
    let r := QSOCKET_CALL (.socket sfamily stype 0) w
    if r.1.ret < 0 then
      let e := _fix_errno r.2.errno
      (e.1, { r.2 with errno := e.2 })
    else (r.1.ret, r.2)

/-- The function `socket_bind`. The local `addr` has `sizeof(struct sockaddr)` bytes;
it is not initialised, and its bytes before the call are taken as zero. The memory at
`&addr` after `sock_address_to_bsd` is longer than the local exactly when the
conversion stored beyond it: the behaviour of the C code is then undefined and the
result is `none`. Otherwise the bytes handed to `bind` are the first `addrlen` bytes
of the local. -/
def socket_bind (fd : Int) (address : SockAddress) (w : World) : Option (Int × World) :=
  let addr := List.replicate sizeof_sockaddr 0
  let t := sock_address_to_bsd address addr 0 w.errno
  if sizeof_sockaddr < t.paddress.length then none
  else if t.ret < 0 then some (-1, { w with errno := t.errno })
  else
    some (SOCKET_CALL (.bind fd (t.paddress.take t.psize) t.psize) { w with errno := t.errno })

/-- The function `socket_listen`. -/
def socket_listen (fd : Int) (backlog : Int) (w : World) : Int × World :=
  SOCKET_CALL (.listen fd backlog) w

/-- The function `socket_setoption` of the POSIX build. -/
def socket_setoption (fd domain option _flag : Int) (w : World) : Int × World :=
  let flag := _flag
  let r := w.call (.setsockopt fd domain option flag)
  (r.1.ret, r.2)

/-- The function `socket_set_xreuseaddr` of the POSIX build. -/
def socket_set_xreuseaddr (fd : Int) (w : World) : Int × World :=
  socket_setoption fd SOL_SOCKET SO_REUSEADDR 1 w

/-- The function `socket_close` of the POSIX build. -/
def socket_close (fd : Int) (w : World) : World :=
  let old_errno := w.errno
  let w := (w.call (.shutdown fd SHUT_RDWR)).2
  let w := (w.call (.close fd)).2
  { w with errno := old_errno }

/-- The function `socket_close` of the `_WIN32` build: `shutdown`, then the
registration of the draining handler with the event loop. -/
def socket_close_win32 (fd : Int) (SD_BOTH : Int) (w : World) : World :=
  let old_errno := w.errno
  let w := (w.call (.shutdown fd SD_BOTH)).2
  let w := (w.call (.qemu_set_fd_handler fd)).2
  { w with errno := old_errno }

/-- The function `socket_bind_server`. The debug output of the macro `D` makes no
native socket call and is left out. The result is `none` when the behaviour of
`socket_bind` is undefined. -/
def socket_bind_server (s : Int) (to_ : SockAddress) (type : SocketType) (w : World) :
    Option (Int × World) :=
  let w := (socket_set_xreuseaddr s w).2
  match socket_bind s to_ w with
  | none => none
  | some b =>
      some (
        if b.1 < 0 then (-1, socket_close s b.2)
        else
          if type = .SOCKET_STREAM then
            let l := socket_listen s 4 b.2
            if l.1 < 0 then (-1, socket_close s l.2)
            else (s, l.2)
          else (s, b.2))

/-- The function `socket_accept`; `address` is `none` for a null pointer, else the
previous value of the output. The result holds the return value, the output and the
world. -/
def socket_accept (fd : Int) (address : Option SockAddress) (w : World) :
    Int × Option SockAddress × World :=
  let r := QSOCKET_CALL (.accept fd) w
  if r.1.ret < 0 then
    let e := _fix_errno r.2.errno
    (e.1, address, { r.2 with errno := e.2 })
  else
    match address with
    | none => (r.1.ret, none, r.2)
    | some a =>
        let f := sock_address_from_bsd a r.1.addr r.1.addrlen r.2.errno
        if f.ret < 0 then
          (-1, some f.a, socket_close r.1.ret { r.2 with errno := f.errno })
        else (r.1.ret, some f.a, { r.2 with errno := f.errno })

/-! ## The `_WIN32` build: error normalisation

The Winsock error codes are those of `winerror.h`. The values of the `errno`
constants on that build come from headers that are not part of the sources, so a
portable error code is represented by the name of its constant. -/

namespace Win32

/-- The `errno` constants named in `WINSOCK_ERRORS_LIST`. -/
inductive Errno
  | EINVAL
  | ENOMEM
  | EINTR
  | EALREADY
  | EBADF
  | EACCES
  | EFAULT
  | EMFILE
  | EAGAIN
  | EDESTADDRREQ
  | EMSGSIZE
  | EPROTOTYPE
  | ENOPROTOOPT
  | EADDRINUSE
  | EADDRNOTAVAIL
  | ENETDOWN
  | ENETUNREACH
  | ENETRESET
  | ECONNABORTED
  | ECONNRESET
  | ENOBUFS
  | EISCONN
  | ENOTCONN
  | ESHUTDOWN
  | ETOOMANYREFS
  | ETIMEDOUT
  | ECONNREFUSED
  | ELOOP
  | ENAMETOOLONG
  | EHOSTDOWN
  | EHOSTUNREACH
  deriving DecidableEq, Repr

/-- The value of `WSA_INVALID_HANDLE`. -/
def WSA_INVALID_HANDLE : Int := 6

/-- The value of `WSA_NOT_ENOUGH_MEMORY`. -/
def WSA_NOT_ENOUGH_MEMORY : Int := 8

/-- The value of `WSA_INVALID_PARAMETER`. -/
def WSA_INVALID_PARAMETER : Int := 87

/-- The value of `WSAEINTR`. -/
def WSAEINTR : Int := 10004

/-- The value of `WSAEALREADY`. -/
def WSAEALREADY : Int := 10037

/-- The value of `WSAEBADF`. -/
def WSAEBADF : Int := 10009

/-- The value of `WSAEACCES`. -/
def WSAEACCES : Int := 10013

/-- The value of `WSAEFAULT`. -/
def WSAEFAULT : Int := 10014

/-- The value of `WSAEINVAL`. -/
def WSAEINVAL : Int := 10022

/-- The value of `WSAEMFILE`. -/
def WSAEMFILE : Int := 10024

/-- The value of `WSAEWOULDBLOCK`. -/
def WSAEWOULDBLOCK : Int := 10035

/-- The value of `WSAEINPROGRESS`. -/
def WSAEINPROGRESS : Int := 10036

/-- The value of `WSAENOTSOCK`. -/
def WSAENOTSOCK : Int := 10038

/-- The value of `WSAEDESTADDRREQ`. -/
def WSAEDESTADDRREQ : Int := 10039

/-- The value of `WSAEMSGSIZE`. -/
def WSAEMSGSIZE : Int := 10040

/-- The value of `WSAEPROTOTYPE`. -/
def WSAEPROTOTYPE : Int := 10041

/-- The value of `WSAENOPROTOOPT`. -/
def WSAENOPROTOOPT : Int := 10042

/-- The value of `WSAEADDRINUSE`. -/
def WSAEADDRINUSE : Int := 10048

/-- The value of `WSAEADDRNOTAVAIL`. -/
def WSAEADDRNOTAVAIL : Int := 10049

/-- The value of `WSAENETDOWN`. -/
def WSAENETDOWN : Int := 10050

/-- The value of `WSAENETUNREACH`. -/
def WSAENETUNREACH : Int := 10051

/-- The value of `WSAENETRESET`. -/
def WSAENETRESET : Int := 10052

/-- The value of `WSAECONNABORTED`. -/
def WSAECONNABORTED : Int := 10053

/-- The value of `WSAECONNRESET`. -/
def WSAECONNRESET : Int := 10054

/-- The value of `WSAENOBUFS`. -/
def WSAENOBUFS : Int := 10055

/-- The value of `WSAEISCONN`. -/
def WSAEISCONN : Int := 10056

/-- The value of `WSAENOTCONN`. -/
def WSAENOTCONN : Int := 10057

/-- The value of `WSAESHUTDOWN`. -/
def WSAESHUTDOWN : Int := 10058

/-- The value of `WSAETOOMANYREFS`. -/
def WSAETOOMANYREFS : Int := 10059

/-- The value of `WSAETIMEDOUT`. -/
def WSAETIMEDOUT : Int := 10060

/-- The value of `WSAECONNREFUSED`. -/
def WSAECONNREFUSED : Int := 10061

/-- The value of `WSAELOOP`. -/
def WSAELOOP : Int := 10062

/-- The value of `WSAENAMETOOLONG`. -/
def WSAENAMETOOLONG : Int := 10063

/-- The value of `WSAEHOSTDOWN`. -/
def WSAEHOSTDOWN : Int := 10064

/-- The value of `WSAEHOSTUNREACH`. -/
def WSAEHOSTUNREACH : Int := 10065

/-- The structure `WinsockError`. -/
structure WinsockError where
  winsock : Int
  unix : Errno
  string : String
  deriving DecidableEq, Repr

/-- The table `_winsock_errors`, in the order of `WINSOCK_ERRORS_LIST`, without the
terminating entry whose `string` is `NULL`. -/
def _winsock_errors : List WinsockError :=
  [⟨WSA_INVALID_HANDLE, .EINVAL, "invalid handle"⟩,
   ⟨WSA_NOT_ENOUGH_MEMORY, .ENOMEM, "not enough memory"⟩,
   ⟨WSA_INVALID_PARAMETER, .EINVAL, "invalid parameter"⟩,
   ⟨WSAEINTR, .EINTR, "interrupted function call"⟩,
   ⟨WSAEALREADY, .EALREADY, "operation already in progress"⟩,
   ⟨WSAEBADF, .EBADF, "bad file descriptor"⟩,
   ⟨WSAEACCES, .EACCES, "permission denied"⟩,
   ⟨WSAEFAULT, .EFAULT, "bad address"⟩,
   ⟨WSAEINVAL, .EINVAL, "invalid argument"⟩,
   ⟨WSAEMFILE, .EMFILE, "too many opened files"⟩,
   ⟨WSAEWOULDBLOCK, .EAGAIN, "resource temporarily unavailable"⟩,
   ⟨WSAEINPROGRESS, .EAGAIN, "operation now in progress"⟩,
   ⟨WSAEALREADY, .EAGAIN, "operation already in progress"⟩,
   ⟨WSAENOTSOCK, .EBADF, "socket operation not on socket"⟩,
   ⟨WSAEDESTADDRREQ, .EDESTADDRREQ, "destination address required"⟩,
   ⟨WSAEMSGSIZE, .EMSGSIZE, "message too long"⟩,
   ⟨WSAEPROTOTYPE, .EPROTOTYPE, "wrong protocol type for socket"⟩,
   ⟨WSAENOPROTOOPT, .ENOPROTOOPT, "bad protocol option"⟩,
   ⟨WSAEADDRINUSE, .EADDRINUSE, "address already in use"⟩,
   ⟨WSAEADDRNOTAVAIL, .EADDRNOTAVAIL, "cannot assign requested address"⟩,
   ⟨WSAENETDOWN, .ENETDOWN, "network is down"⟩,
   ⟨WSAENETUNREACH, .ENETUNREACH, "network unreachable"⟩,
   ⟨WSAENETRESET, .ENETRESET, "network dropped connection on reset"⟩,
   ⟨WSAECONNABORTED, .ECONNABORTED, "software caused connection abort"⟩,
   ⟨WSAECONNRESET, .ECONNRESET, "connection reset by peer"⟩,
   ⟨WSAENOBUFS, .ENOBUFS, "no buffer space available"⟩,
   ⟨WSAEISCONN, .EISCONN, "socket is already connected"⟩,
   ⟨WSAENOTCONN, .ENOTCONN, "socket is not connected"⟩,
   ⟨WSAESHUTDOWN, .ESHUTDOWN, "cannot send after socket shutdown"⟩,
   ⟨WSAETOOMANYREFS, .ETOOMANYREFS, "too many references"⟩,
   ⟨WSAETIMEDOUT, .ETIMEDOUT, "connection timed out"⟩,
   ⟨WSAECONNREFUSED, .ECONNREFUSED, "connection refused"⟩,
   ⟨WSAELOOP, .ELOOP, "cannot translate name"⟩,
   ⟨WSAENAMETOOLONG, .ENAMETOOLONG, "name too long"⟩,
   ⟨WSAEHOSTDOWN, .EHOSTDOWN, "host is down"⟩,
   ⟨WSAEHOSTUNREACH, .EHOSTUNREACH, "no route to host"⟩]

/-- The state of the `_WIN32` build around a socket primitive: `errno`, the static
`winsock_error`, the value that `WSAGetLastError()` returns, and the answers of the
native calls to come, each a return value and the last-error code it leaves. Once the
answers are used up a native call succeeds with 0. -/
structure State where
  errno : Errno
  winsock_error : Int
  last_error : Int
  pending : List (Int × Int)
  deriving DecidableEq, Repr

/-- The loop of `_fix_errno` over the table, from the current value of `unix`. -/
def fix_errno_loop (winsock_error : Int) : List WinsockError → Errno → Errno
  | [], unix => unix
  | werr :: rest, unix =>
      if werr.winsock = winsock_error then werr.unix
      else fix_errno_loop winsock_error rest unix

/-- The function `_fix_errno` of the `_WIN32` build. -/
def _fix_errno (st : State) : Int × State :=
  let unix := fix_errno_loop st.winsock_error _winsock_errors .EINVAL
  (-1, { st with errno := unix })

/-- The function `_set_errno` of the `_WIN32` build. -/
def _set_errno (code : Errno) (st : State) : Int × State :=
  (-1, { st with winsock_error := -1, errno := code })

/-- The loop of `_errno_str` over the table, from the current value of `result`
(`none` is `NULL`). -/
def errno_str_loop (winsock_error : Int) : List WinsockError → Option String → Option String
  | [], result => result
  | werr :: rest, result =>
      if werr.winsock = winsock_error then some werr.string
      else errno_str_loop winsock_error rest result

/-- The function `_errno_str`; `strerror` is the C library function. -/
def _errno_str (strerror : Errno → String) (st : State) : String :=
  let result := errno_str_loop st.winsock_error _winsock_errors (some "<unknown error>")
  match result with
  | none => strerror st.errno
  | some s => s

/-- One native call: it takes the next answer and leaves its last-error code. -/
def State.call (st : State) : Int × State :=
  match st.pending with
  | [] => (0, st)
  | r :: rest => (r.1, { st with last_error := r.2, pending := rest })

/-- The loop `do { _ret = (_cmd); } while ( _ret < 0 && WSAGetLastError() == WSAEINTR )`
of `QSOCKET_CALL`; the first argument bounds the number of repetitions. -/
def QSOCKET_CALL_loop : Nat → State → Int × State
  | 0, st => st.call
  | fuel + 1, st =>
      let r := st.call
      if r.1 < 0 ∧ r.2.last_error = WSAEINTR then QSOCKET_CALL_loop fuel r.2 else r

/-- The macro `QSOCKET_CALL` of the `_WIN32` build. -/
def QSOCKET_CALL (st : State) : Int × State :=
  QSOCKET_CALL_loop st.pending.length st

/-- The macro `SOCKET_CALL` of the `_WIN32` build. -/
def SOCKET_CALL (st : State) : Int × State :=
  let r := QSOCKET_CALL st
  if r.1 < 0 then _fix_errno r.2 else r

/-- The function `socket_send` of the `_WIN32` build. -/
def socket_send (_fd : Int) (_buf : List Nat) (_buflen : Int) (st : State) : Int × State :=
  SOCKET_CALL st

/-- The function `socket_recv` of the `_WIN32` build. -/
def socket_recv (_fd : Int) (_len : Int) (st : State) : Int × State :=
  SOCKET_CALL st

/-- The function `socket_listen` of the `_WIN32` build. -/
def socket_listen (_fd : Int) (_backlog : Int) (st : State) : Int × State :=
  SOCKET_CALL st

end Win32

/-! ## A resolver that honours the family hint -/

/-- The `sockaddr_in` bytes of 127.0.0.1 with port 0, as a resolver entry. -/
def loopback_ipv4_entry : addrinfo :=
  ⟨AF_INET, [2, 0, 0, 0, 127, 0, 0, 1, 0, 0, 0, 0, 0, 0, 0, 0], sizeof_sockaddr_in⟩

/-- A resolver for a host that has the single address 127.0.0.1: asked without a
service name for any family or for `AF_INET` it answers with that entry, and asked
for another family it fails with `EAI_NONAME`, as `getaddrinfo` does for a family in
which the host has no address. -/
def ipv4_only_host : Resolver :=
  fun _ service family =>
    if service = none ∧ (family = AF_UNSPEC ∨ family = AF_INET) then (0, [loopback_ipv4_entry])
    else (EAI_NONAME, [])

/-! ## Theorems -/

theorem list_length_16 (l : List Nat) (h : l.length = 16) :
    ∃ b0 b1 b2 b3 b4 b5 b6 b7 b8 b9 b10 b11 b12 b13 b14 b15,
      l = [b0, b1, b2, b3, b4, b5, b6, b7, b8, b9, b10, b11, b12, b13, b14, b15] := by
  match l, h with
  | [b0, b1, b2, b3, b4, b5, b6, b7, b8, b9, b10, b11, b12, b13, b14, b15], _ =>
    exact ⟨b0, b1, b2, b3, b4, b5, b6, b7, b8, b9, b10, b11, b12, b13, b14, b15, rfl⟩

theorem from_bsd_to_bsd_inet (prev : SockAddress) (ip port : Nat) (paddress : List Nat)
    (psize : Nat) (errno : Int) (hip : ip < 2 ^ 32) (hport : port < 2 ^ 16) :
    sock_address_from_bsd prev (sock_address_to_bsd (.inet ip port) paddress psize errno).paddress
        (sock_address_to_bsd (.inet ip port) paddress psize errno).psize
        (sock_address_to_bsd (.inet ip port) paddress psize errno).errno
      = { ret := 0, a := .inet ip port, errno := errno } := by
  simp [sock_address_to_bsd, sock_address_from_bsd, memset, store_at, host16, htons_bytes,
    htonl_bytes, sa_family, byte_at, AF_INET, sizeof_sockaddr_in, List.replicate]
  constructor <;> omega

theorem from_bsd_to_bsd_in6 (prev : SockAddress) (addr : List Nat) (port : Nat)
    (paddress : List Nat) (psize : Nat) (errno : Int) (hlen : addr.length = 16)
    (hport : port < 2 ^ 16) :
    sock_address_from_bsd prev (sock_address_to_bsd (.in6 addr port) paddress psize errno).paddress
        (sock_address_to_bsd (.in6 addr port) paddress psize errno).psize
        (sock_address_to_bsd (.in6 addr port) paddress psize errno).errno
      = { ret := 0, a := .in6 addr port, errno := errno } := by
  obtain ⟨b0, b1, b2, b3, b4, b5, b6, b7, b8, b9, b10, b11, b12, b13, b14, b15, rfl⟩ :=
    list_length_16 addr hlen
  simp [sock_address_to_bsd, sock_address_from_bsd, memset, store_at, host16, htons_bytes,
    sa_family, byte_at, AF_INET, AF_INET6, sizeof_sockaddr_in6, List.replicate, List.range,
    List.range.loop]
  omega

theorem take_strlen (p : List Nat) : p.take (strlen p) = c_str p := by
  induction p with
  | nil => rfl
  | cons x xs ih =>
    by_cases hx : x = 0
    · simp [strlen, c_str, hx]
    · simp only [strlen, c_str] at ih ⊢
      simp [List.takeWhile_cons, hx, ih]

theorem strlen_le_length (p : List Nat) : strlen p ≤ p.length := by
  unfold strlen c_str
  exact (List.takeWhile_sublist _).length_le

theorem c_str_nonzero (p : List Nat) : ∀ b ∈ c_str p, b ≠ 0 := by
  intro b hb
  have := List.mem_takeWhile_imp hb
  simpa using this

theorem c_str_append_nul (p rest : List Nat) (h : ∀ b ∈ p, b ≠ 0) :
    c_str (p ++ 0 :: rest) = p := by
  induction p with
  | nil => simp [c_str]
  | cons x xs ih =>
    have hx : x ≠ 0 := h x (by simp)
    have := ih (fun b hb => h b (by simp [hb]))
    simp only [c_str] at this ⊢
    simp [List.takeWhile_cons, hx, this]

theorem c_str_of_wf (p : List Nat) (h : ∀ b ∈ p, 0 < b ∧ b < 256) : c_str p = p := by
  unfold c_str
  rw [List.takeWhile_eq_self_iff]
  intro b hb
  have := (h b hb).1
  simp; omega

theorem replicate_split (n k : Nat) (h : k ≤ n) :
    List.replicate n 0 = List.replicate k 0 ++ List.replicate (n - k) 0 := by
  rw [← List.replicate_add]
  congr 1
  omega

theorem store_at_mid (xs ys zs bs : List Nat) (h : ys.length = bs.length) :
    store_at (xs ++ (ys ++ zs)) xs.length bs = xs ++ (bs ++ zs) := by
  unfold store_at
  rw [List.take_left', List.drop_append, ← h, List.drop_left']
  · simp
  · rfl
  · rfl

theorem to_bsd_unix_layout (path : List Nat) (owner : Bool) (paddress : List Nat)
    (psize : Nat) (errno : Int) (h : strlen path < UNIX_PATH_MAX) :
    sock_address_to_bsd (.unix path owner) paddress psize errno =
      { ret := 0,
        paddress := host16 AF_LOCAL ++ (c_str path ++
          (List.replicate (sizeof_sun_path - strlen path) 0 ++ paddress.drop sizeof_sockaddr_un)),
        psize := offsetof_sun_path + strlen path + 1,
        errno := errno } := by
  have hL : strlen path ≤ 106 := by unfold UNIX_PATH_MAX sizeof_sun_path at h; omega
  have hnot : ¬ (strlen path ≥ UNIX_PATH_MAX) := by omega
  simp only [sock_address_to_bsd, hnot, if_false, take_strlen]
  have e1 : memset paddress 0 sizeof_sockaddr_un =
      [] ++ ([0, 0] ++ (List.replicate sizeof_sun_path 0 ++ paddress.drop sizeof_sockaddr_un)) := by
    simp [memset, sizeof_sockaddr_un, offsetof_sun_path, List.replicate_add]
  have e2 : store_at (memset paddress 0 sizeof_sockaddr_un) 0 (host16 AF_LOCAL) =
      host16 AF_LOCAL ++ (List.replicate (strlen path) 0 ++
        (List.replicate (sizeof_sun_path - strlen path) 0 ++ paddress.drop sizeof_sockaddr_un)) := by
    rw [e1]
    have := store_at_mid [] [0, 0]
      (List.replicate sizeof_sun_path 0 ++ paddress.drop sizeof_sockaddr_un) (host16 AF_LOCAL) rfl
    simp only [List.length_nil] at this
    rw [this]
    rw [replicate_split sizeof_sun_path (strlen path) (by unfold sizeof_sun_path; omega)]
    simp only [List.nil_append, List.append_assoc]
  have e3 : store_at (store_at (memset paddress 0 sizeof_sockaddr_un) 0 (host16 AF_LOCAL))
        offsetof_sun_path (c_str path) =
      host16 AF_LOCAL ++ (c_str path ++
        (List.replicate (sizeof_sun_path - strlen path) 0 ++ paddress.drop sizeof_sockaddr_un)) := by
    rw [e2]
    exact store_at_mid (host16 AF_LOCAL) _ _ _ (by simp [strlen])
  rw [e3]
  have e5 : host16 AF_LOCAL ++ (c_str path ++
        (List.replicate (sizeof_sun_path - strlen path) 0 ++ paddress.drop sizeof_sockaddr_un)) =
      (host16 AF_LOCAL ++ c_str path) ++ ([0] ++
        (List.replicate (sizeof_sun_path - strlen path - 1) 0 ++ paddress.drop sizeof_sockaddr_un)) := by
    rw [replicate_split (sizeof_sun_path - strlen path) 1 (by unfold sizeof_sun_path; omega)]
    simp only [List.nil_append, List.append_assoc]
    rfl
  have e6 : offsetof_sun_path + strlen path = (host16 AF_LOCAL ++ c_str path).length := by
    simp [host16, strlen, offsetof_sun_path]; omega
  congr 1
  rw [e6]
  conv_lhs => rw [e5]
  rw [store_at_mid _ [0] _ [0] rfl, ← e5]

theorem from_bsd_unix_layout (prev : SockAddress) (p rest : List Nat) (fromlen : Nat)
    (errno : Int) (hp : ∀ b ∈ p, b ≠ 0) (hlen : p.length < UNIX_PATH_MAX) :
    sock_address_from_bsd prev (host16 AF_LOCAL ++ (p ++ 0 :: rest)) fromlen errno =
      if fromlen < sizeof_sockaddr_un then { ret := -1, a := prev, errno := EINVAL }
      else { ret := 0, a := .unix p true, errno := errno } := by
  have hfam : sa_family (host16 AF_LOCAL ++ (p ++ 0 :: rest)) = AF_LOCAL := by
    simp [sa_family, byte_at, host16, AF_LOCAL]
  have hdrop : (host16 AF_LOCAL ++ (p ++ 0 :: rest)).drop offsetof_sun_path = p ++ 0 :: rest := by
    simp [host16, offsetof_sun_path]
  have hscan : 0 ∈ sun_path_scan (host16 AF_LOCAL ++ (p ++ 0 :: rest)) := by
    unfold sun_path_scan
    rw [hdrop, List.take_append_eq_append_take]
    apply List.mem_append_right
    obtain ⟨k, hk⟩ : ∃ k, UNIX_PATH_MAX - p.length = k + 1 := ⟨UNIX_PATH_MAX - p.length - 1, by omega⟩
    rw [hk]
    simp
  unfold sock_address_from_bsd
  simp only [hfam, hdrop, strdup, c_str_append_nul p rest hp]
  have h1 : AF_LOCAL ≠ AF_INET := by decide
  have h2 : AF_LOCAL ≠ AF_INET6 := by decide
  by_cases hl : fromlen < sizeof_sockaddr_un
  · simp [hl, h1, h2, _set_errno]
  · simp [hl, h1, h2, hscan]

theorem to_bsd_unix_paddress_shape (path : List Nat) (paddress : List Nat)
    (h : strlen path < UNIX_PATH_MAX) :
    host16 AF_LOCAL ++ (c_str path ++
      (List.replicate (sizeof_sun_path - strlen path) 0 ++ paddress.drop sizeof_sockaddr_un)) =
    host16 AF_LOCAL ++ (c_str path ++ 0 ::
      (List.replicate (sizeof_sun_path - strlen path - 1) 0 ++ paddress.drop sizeof_sockaddr_un)) := by
  rw [replicate_split (sizeof_sun_path - strlen path) 1
    (by unfold UNIX_PATH_MAX sizeof_sun_path at *; omega)]
  simp only [List.append_assoc]
  rfl

/-- C1. For every INET value and every IN6 value within the ranges of its fields,
`sock_address_to_bsd` succeeds, and `sock_address_from_bsd` applied to the bytes and
the size it produced succeeds, leaves `errno` alone, and yields the original value,
which `sock_address_equal` reports equal to the original. -/
theorem to_bsd_from_bsd_inet_in6_roundtrip (a prev : SockAddress) (paddress : List Nat)
    (psize : Nat) (errno : Int) (hwf : a.wf) (hfam : a.family ≠ .SOCKET_UNIX) :
    (sock_address_to_bsd a paddress psize errno).ret = 0 ∧
    (sock_address_from_bsd prev (sock_address_to_bsd a paddress psize errno).paddress
        (sock_address_to_bsd a paddress psize errno).psize
        (sock_address_to_bsd a paddress psize errno).errno).ret = 0 ∧
    (sock_address_from_bsd prev (sock_address_to_bsd a paddress psize errno).paddress
        (sock_address_to_bsd a paddress psize errno).psize
        (sock_address_to_bsd a paddress psize errno).errno).a = a ∧
    sock_address_equal
      (sock_address_from_bsd prev (sock_address_to_bsd a paddress psize errno).paddress
        (sock_address_to_bsd a paddress psize errno).psize
        (sock_address_to_bsd a paddress psize errno).errno).a a = true := by
  cases a with
  | inet ip port =>
    obtain ⟨hip, hport⟩ := hwf
    rw [from_bsd_to_bsd_inet prev ip port paddress psize errno hip hport]
    refine ⟨rfl, rfl, rfl, ?_⟩
    simp [sock_address_equal]
  | in6 addr port =>
    obtain ⟨hlen, _, hport⟩ := hwf
    rw [from_bsd_to_bsd_in6 prev addr port paddress psize errno hlen hport]
    refine ⟨rfl, rfl, rfl, ?_⟩
    simp [sock_address_equal, memcmp_eq]
  | unix path owner => exact absurd rfl hfam

/-- Witness for C1: the loopback address 127.0.0.1 with port 80. -/
theorem to_bsd_from_bsd_inet_in6_roundtrip_witness :
    (sock_address_to_bsd (.inet 0x7f000001 80) (List.replicate 16 255) 0 0).ret = 0 ∧
    (sock_address_from_bsd (.unix [] false)
        (sock_address_to_bsd (.inet 0x7f000001 80) (List.replicate 16 255) 0 0).paddress
        (sock_address_to_bsd (.inet 0x7f000001 80) (List.replicate 16 255) 0 0).psize
        (sock_address_to_bsd (.inet 0x7f000001 80) (List.replicate 16 255) 0 0).errno).ret = 0 ∧
    (sock_address_from_bsd (.unix [] false)
        (sock_address_to_bsd (.inet 0x7f000001 80) (List.replicate 16 255) 0 0).paddress
        (sock_address_to_bsd (.inet 0x7f000001 80) (List.replicate 16 255) 0 0).psize
        (sock_address_to_bsd (.inet 0x7f000001 80) (List.replicate 16 255) 0 0).errno).a
      = .inet 0x7f000001 80 ∧
    sock_address_equal
      (sock_address_from_bsd (.unix [] false)
        (sock_address_to_bsd (.inet 0x7f000001 80) (List.replicate 16 255) 0 0).paddress
        (sock_address_to_bsd (.inet 0x7f000001 80) (List.replicate 16 255) 0 0).psize
        (sock_address_to_bsd (.inet 0x7f000001 80) (List.replicate 16 255) 0 0).errno).a
      (.inet 0x7f000001 80) = true :=
  to_bsd_from_bsd_inet_in6_roundtrip (.inet 0x7f000001 80) (.unix [] false)
    (List.replicate 16 255) 0 0 (by decide) (by decide)

/-- C2, as stated, fails: for the path "a", and for a path of 106 bytes (one byte
under the platform maximum), `sock_address_to_bsd` succeeds and reports a size below
`sizeof(struct sockaddr_un)`, and `sock_address_from_bsd` applied to the produced bytes
and the produced size returns -1 with `errno` set to `EINVAL`. -/
theorem unix_roundtrip_with_reported_size_fails :
    (sock_address_to_bsd (.unix [97] true) (List.replicate 110 255) 0 0).ret = 0 ∧
    (sock_address_to_bsd (.unix [97] true) (List.replicate 110 255) 0 0).psize = 4 ∧
    sock_address_from_bsd (.inet 0 0)
        (sock_address_to_bsd (.unix [97] true) (List.replicate 110 255) 0 0).paddress
        (sock_address_to_bsd (.unix [97] true) (List.replicate 110 255) 0 0).psize
        (sock_address_to_bsd (.unix [97] true) (List.replicate 110 255) 0 0).errno
      = { ret := -1, a := .inet 0 0, errno := EINVAL } ∧
    (sock_address_to_bsd (.unix (List.replicate 106 97) true) (List.replicate 110 255) 0 0).ret = 0 ∧
    (sock_address_to_bsd (.unix (List.replicate 106 97) true) (List.replicate 110 255) 0 0).psize
      = 109 ∧
    sock_address_from_bsd (.inet 0 0)
        (sock_address_to_bsd (.unix (List.replicate 106 97) true) (List.replicate 110 255) 0 0).paddress
        (sock_address_to_bsd (.unix (List.replicate 106 97) true) (List.replicate 110 255) 0 0).psize
        (sock_address_to_bsd (.unix (List.replicate 106 97) true) (List.replicate 110 255) 0 0).errno
      = { ret := -1, a := .inet 0 0, errno := EINVAL } := by
  decide

theorem byte_at_append_cons (xs : List Nat) (v : Nat) (rest : List Nat) :
    byte_at (xs ++ v :: rest) xs.length = v := by
  induction xs with
  | nil => rfl
  | cons x xs ih => simpa [byte_at] using ih

theorem to_bsd_unix_ret_zero (path : List Nat) (owner : Bool) (paddress : List Nat)
    (psize : Nat) (errno : Int)
    (h : (sock_address_to_bsd (.unix path owner) paddress psize errno).ret = 0) :
    strlen path < UNIX_PATH_MAX := by
  by_contra hc
  have hge : strlen path ≥ UNIX_PATH_MAX := by omega
  simp [sock_address_to_bsd, hge] at h

/-- C2, amended. For every UNIX value whose path is a C string and which
`sock_address_to_bsd` accepts, `sock_address_from_bsd` applied to the produced bytes
with a length of at least `sizeof(struct sockaddr_un)` succeeds and yields an owning
UNIX value whose path is exactly the original path, equal to the original by
`sock_address_equal`; applied with the size that `sock_address_to_bsd` reported, which
is smaller, it returns -1 with `EINVAL` and leaves the output value alone. -/
theorem unix_roundtrip_with_full_size (path : List Nat) (owner : Bool) (prev : SockAddress)
    (paddress : List Nat) (psize : Nat) (errno : Int) (fromlen : Nat)
    (hwf : (SockAddress.unix path owner).wf)
    (hacc : (sock_address_to_bsd (.unix path owner) paddress psize errno).ret = 0)
    (hlen : sizeof_sockaddr_un ≤ fromlen) :
    sock_address_from_bsd prev
        (sock_address_to_bsd (.unix path owner) paddress psize errno).paddress fromlen
        (sock_address_to_bsd (.unix path owner) paddress psize errno).errno
      = { ret := 0, a := .unix path true, errno := errno } ∧
    sock_address_equal (.unix path true) (.unix path owner) = true ∧
    sock_address_from_bsd prev
        (sock_address_to_bsd (.unix path owner) paddress psize errno).paddress
        (sock_address_to_bsd (.unix path owner) paddress psize errno).psize
        (sock_address_to_bsd (.unix path owner) paddress psize errno).errno
      = { ret := -1, a := prev, errno := EINVAL } := by
  have hL := to_bsd_unix_ret_zero path owner paddress psize errno hacc
  have hc : c_str path = path := c_str_of_wf path hwf
  have hnz : ∀ b ∈ path, b ≠ 0 := fun b hb => by have := (hwf b hb).1; omega
  have hpl : path.length < UNIX_PATH_MAX := by
    have : strlen path = path.length := by unfold strlen; rw [hc]
    omega
  rw [to_bsd_unix_layout path owner paddress psize errno hL,
    to_bsd_unix_paddress_shape path paddress hL, hc]
  simp only
  rw [from_bsd_unix_layout prev path _ fromlen errno hnz hpl,
    from_bsd_unix_layout prev path _ _ errno hnz hpl]
  refine ⟨?_, ?_, ?_⟩
  · rw [if_neg (by omega)]
  · simp [sock_address_equal, SockAddress.family, strcmp_eq]
  · rw [if_pos]
    unfold UNIX_PATH_MAX sizeof_sun_path at hL
    unfold sizeof_sockaddr_un offsetof_sun_path sizeof_sun_path
    omega

/-- Witness for C2 (amended): the path "/tmp/s" converted and read back with
`sizeof(struct sockaddr_un)` as length. -/
theorem unix_roundtrip_with_full_size_witness :
    sock_address_from_bsd (.inet 0 0)
        (sock_address_to_bsd (.unix [47, 116, 109, 112, 47, 115] true)
          (List.replicate 110 255) 0 0).paddress 110
        (sock_address_to_bsd (.unix [47, 116, 109, 112, 47, 115] true)
          (List.replicate 110 255) 0 0).errno
      = { ret := 0, a := .unix [47, 116, 109, 112, 47, 115] true, errno := 0 } ∧
    sock_address_equal (.unix [47, 116, 109, 112, 47, 115] true)
      (.unix [47, 116, 109, 112, 47, 115] true) = true ∧
    sock_address_from_bsd (.inet 0 0)
        (sock_address_to_bsd (.unix [47, 116, 109, 112, 47, 115] true)
          (List.replicate 110 255) 0 0).paddress
        (sock_address_to_bsd (.unix [47, 116, 109, 112, 47, 115] true)
          (List.replicate 110 255) 0 0).psize
        (sock_address_to_bsd (.unix [47, 116, 109, 112, 47, 115] true)
          (List.replicate 110 255) 0 0).errno
      = { ret := -1, a := .inet 0 0, errno := EINVAL } :=
  unix_roundtrip_with_full_size [47, 116, 109, 112, 47, 115] true (.inet 0 0)
    (List.replicate 110 255) 0 0 110 (by decide) (by decide) (by decide)

/-- C3. For every UNIX value whose path string has length `L`: when
`L >= UNIX_PATH_MAX`, `sock_address_to_bsd` returns -1 and writes nothing; otherwise it
returns 0, the destination holds the family `AF_LOCAL`, the `L` path bytes, then zero
bytes up to `sizeof(struct sockaddr_un)` (the first of them the nul terminator),
nothing beyond that is touched, and the reported size is
`offsetof(sun_path) + L + 1`, which is below `sizeof(struct sockaddr_un)`. -/
theorem to_bsd_unix_size_and_limit (path : List Nat) (owner : Bool) (paddress : List Nat)
    (psize : Nat) (errno : Int) :
    if UNIX_PATH_MAX ≤ strlen path then
      (sock_address_to_bsd (.unix path owner) paddress psize errno).ret = -1 ∧
      (sock_address_to_bsd (.unix path owner) paddress psize errno).paddress = paddress ∧
      (sock_address_to_bsd (.unix path owner) paddress psize errno).psize = psize
    else
      (sock_address_to_bsd (.unix path owner) paddress psize errno).ret = 0 ∧
      (sock_address_to_bsd (.unix path owner) paddress psize errno).paddress =
        host16 AF_LOCAL ++ (c_str path ++ (List.replicate (sizeof_sun_path - strlen path) 0
          ++ paddress.drop sizeof_sockaddr_un)) ∧
      sa_family (sock_address_to_bsd (.unix path owner) paddress psize errno).paddress
        = AF_LOCAL ∧
      ((sock_address_to_bsd (.unix path owner) paddress psize errno).paddress.drop
        offsetof_sun_path).take (strlen path) = c_str path ∧
      byte_at (sock_address_to_bsd (.unix path owner) paddress psize errno).paddress
        (offsetof_sun_path + strlen path) = 0 ∧
      (sock_address_to_bsd (.unix path owner) paddress psize errno).psize
        = offsetof_sun_path + strlen path + 1 ∧
      (sock_address_to_bsd (.unix path owner) paddress psize errno).psize
        < sizeof_sockaddr_un := by
  by_cases h : UNIX_PATH_MAX ≤ strlen path
  · rw [if_pos h]
    have hge : strlen path ≥ UNIX_PATH_MAX := h
    simp [sock_address_to_bsd, hge]
  · rw [if_neg h]
    have hL : strlen path < UNIX_PATH_MAX := by omega
    rw [to_bsd_unix_layout path owner paddress psize errno hL]
    refine ⟨rfl, rfl, ?_, ?_, ?_, rfl, ?_⟩
    · simp [sa_family, byte_at, host16, AF_LOCAL]
    · simp only [host16, offsetof_sun_path]
      simp [strlen]
    · rw [to_bsd_unix_paddress_shape path paddress hL]
      have e : host16 AF_LOCAL ++ (c_str path ++ 0 :: (List.replicate
            (sizeof_sun_path - strlen path - 1) 0 ++ paddress.drop sizeof_sockaddr_un)) =
          (host16 AF_LOCAL ++ c_str path) ++ 0 :: (List.replicate
            (sizeof_sun_path - strlen path - 1) 0 ++ paddress.drop sizeof_sockaddr_un) := by
        simp
      have e2 : offsetof_sun_path + strlen path = (host16 AF_LOCAL ++ c_str path).length := by
        simp [host16, strlen, offsetof_sun_path]; omega
      rw [e, e2]
      exact byte_at_append_cons _ _ _
    · simp only
      unfold UNIX_PATH_MAX sizeof_sun_path at hL
      unfold sizeof_sockaddr_un offsetof_sun_path sizeof_sun_path
      omega

/-- C4 fails on the code: for a UNIX value whose path has 108 bytes (one byte over
`UNIX_PATH_MAX`), called with `errno` equal to 0, `sock_address_to_bsd` returns -1,
writes nothing, and `errno` is still 0 afterwards, not `EINVAL`. -/
theorem to_bsd_unix_too_long_keeps_errno :
    UNIX_PATH_MAX + 1 = 108 ∧
    sock_address_to_bsd (.unix (List.replicate 108 97) true) (List.replicate 110 255) 0 0
      = { ret := -1, paddress := List.replicate 110 255, psize := 0, errno := 0 } ∧
    (sock_address_to_bsd (.unix (List.replicate 108 97) true) (List.replicate 110 255) 0 0).errno
      ≠ EINVAL := by
  decide

/-- C5. `sock_address_from_bsd` returns -1 exactly when the native family tag is none
of `AF_INET`, `AF_INET6`, `AF_LOCAL`, or `fromlen` is below the size of the structure
of the tagged family, or the tag is `AF_LOCAL` and no nul byte occurs among the first
`UNIX_PATH_MAX` bytes of `sun_path`; whenever it returns -1, `errno` is `EINVAL`; in
every other case it returns 0, leaves `errno` alone, and the family of the result is
the one mapped to the native tag. -/
theorem from_bsd_fails_exactly (a : SockAddress) (src : List Nat) (fromlen : Nat)
    (errno : Int) :
    ((sock_address_from_bsd a src fromlen errno).ret = -1 ↔
      ((sa_family src ≠ AF_INET ∧ sa_family src ≠ AF_INET6 ∧ sa_family src ≠ AF_LOCAL) ∨
       (sa_family src = AF_INET ∧ fromlen < sizeof_sockaddr_in) ∨
       (sa_family src = AF_INET6 ∧ fromlen < sizeof_sockaddr_in6) ∨
       (sa_family src = AF_LOCAL ∧ fromlen < sizeof_sockaddr_un) ∨
       (sa_family src = AF_LOCAL ∧
         0 ∉ (src.drop offsetof_sun_path).take UNIX_PATH_MAX))) ∧
    ((sock_address_from_bsd a src fromlen errno).ret = -1 →
      (sock_address_from_bsd a src fromlen errno).errno = EINVAL) ∧
    ((sock_address_from_bsd a src fromlen errno).ret ≠ -1 →
      (sock_address_from_bsd a src fromlen errno).ret = 0 ∧
      (sock_address_from_bsd a src fromlen errno).errno = errno ∧
      socket_family_to_bsd (sock_address_from_bsd a src fromlen errno).a.family
        = sa_family src) := by
  have d1 : AF_INET ≠ AF_INET6 := by decide
  have d2 : AF_INET ≠ AF_LOCAL := by decide
  have d3 : AF_INET6 ≠ AF_LOCAL := by decide
  unfold sock_address_from_bsd
  by_cases h1 : sa_family src = AF_INET
  · by_cases hl : fromlen < sizeof_sockaddr_in <;>
      simp [h1, hl, d1, d2, _set_errno, socket_family_to_bsd, SockAddress.family]
  · by_cases h2 : sa_family src = AF_INET6
    · by_cases hl : fromlen < sizeof_sockaddr_in6 <;>
        simp [h2, hl, d1.symm, d3, _set_errno, socket_family_to_bsd,
          SockAddress.family]
    · by_cases h3 : sa_family src = AF_LOCAL
      · by_cases hl : fromlen < sizeof_sockaddr_un
        · simp [h3, hl, d2.symm, d3.symm, _set_errno]
        · by_cases hz : 0 ∈ sun_path_scan src
          · have hz2 := hz
            unfold sun_path_scan at hz2
            simp [h3, hl, hz, hz2, d2.symm, d3.symm, socket_family_to_bsd,
              SockAddress.family]
          · have hz2 := hz
            unfold sun_path_scan at hz2
            simp [h3, hl, hz, hz2, d2.symm, d3.symm, _set_errno]
      · simp [h1, h2, h3, _set_errno]

/-- C6. For an INET value `sock_address_to_bsd` returns 0, reports
`sizeof(struct sockaddr_in)` and leaves in the destination the family `AF_INET`, the
port high byte first, the address most significant byte first, and eight zero bytes;
for an IN6 value it returns 0, reports `sizeof(struct sockaddr_in6)` and leaves the
family `AF_INET6`, the port high byte first, four zero bytes, the 16 address bytes
unchanged and in order, and four zero bytes. Bytes beyond the structure are untouched. -/
theorem to_bsd_inet_in6_layout (ip port : Nat) (addr : List Nat) (port6 : Nat)
    (paddress : List Nat) (psize : Nat) (errno : Int)
    (hinet : (SockAddress.inet ip port).wf) (hin6 : (SockAddress.in6 addr port6).wf) :
    sock_address_to_bsd (.inet ip port) paddress psize errno =
      { ret := 0,
        paddress := host16 AF_INET ++ [port / 256, port % 256]
          ++ [ip / 2 ^ 24, ip / 2 ^ 16 % 256, ip / 2 ^ 8 % 256, ip % 256]
          ++ List.replicate 8 0 ++ paddress.drop sizeof_sockaddr_in,
        psize := sizeof_sockaddr_in,
        errno := errno } ∧
    sock_address_to_bsd (.in6 addr port6) paddress psize errno =
      { ret := 0,
        paddress := host16 AF_INET6 ++ [port6 / 256, port6 % 256] ++ List.replicate 4 0
          ++ addr ++ List.replicate 4 0 ++ paddress.drop sizeof_sockaddr_in6,
        psize := sizeof_sockaddr_in6,
        errno := errno } := by
  obtain ⟨hip, hport⟩ := hinet
  obtain ⟨hlen, _, hport6⟩ := hin6
  obtain ⟨b0, b1, b2, b3, b4, b5, b6, b7, b8, b9, b10, b11, b12, b13, b14, b15, rfl⟩ :=
    list_length_16 addr hlen
  constructor
  · simp [sock_address_to_bsd, memset, store_at, host16, htons_bytes, htonl_bytes,
      sizeof_sockaddr_in, List.replicate]
    constructor <;> omega
  · simp [sock_address_to_bsd, memset, store_at, host16, htons_bytes,
      sizeof_sockaddr_in6, List.replicate]
    omega

/-- Witness for C6: 127.0.0.1 port 80, and the IPv6 loopback address with port 8080. -/
theorem to_bsd_inet_in6_layout_witness :
    sock_address_to_bsd (.inet 0x7f000001 80) (List.replicate 30 255) 0 0 =
      { ret := 0,
        paddress := host16 AF_INET ++ [80 / 256, 80 % 256]
          ++ [0x7f000001 / 2 ^ 24, 0x7f000001 / 2 ^ 16 % 256, 0x7f000001 / 2 ^ 8 % 256,
              0x7f000001 % 256]
          ++ List.replicate 8 0 ++ (List.replicate 30 255).drop sizeof_sockaddr_in,
        psize := sizeof_sockaddr_in,
        errno := 0 } ∧
    sock_address_to_bsd (.in6 [0, 0, 0, 0, 0, 0, 0, 0, 0, 0, 0, 0, 0, 0, 0, 1] 8080)
        (List.replicate 30 255) 0 0 =
      { ret := 0,
        paddress := host16 AF_INET6 ++ [8080 / 256, 8080 % 256] ++ List.replicate 4 0
          ++ [0, 0, 0, 0, 0, 0, 0, 0, 0, 0, 0, 0, 0, 0, 0, 1] ++ List.replicate 4 0
          ++ (List.replicate 30 255).drop sizeof_sockaddr_in6,
        psize := sizeof_sockaddr_in6,
        errno := 0 } :=
  to_bsd_inet_in6_layout 0x7f000001 80 [0, 0, 0, 0, 0, 0, 0, 0, 0, 0, 0, 0, 0, 0, 0, 1] 8080
    (List.replicate 30 255) 0 0 (by decide) (by decide)

/-- C7. `sock_address_equal` is reflexive and symmetric on all address values (every
value of the type is one that the three `sock_address_init_*` functions build), and it
is false whenever the two families differ. -/
theorem sock_address_equal_refl_symm_family (a b : SockAddress) :
    sock_address_equal a a = true ∧
    sock_address_equal a b = sock_address_equal b a ∧
    (a.family ≠ b.family → sock_address_equal a b = false) := by
  refine ⟨?_, ?_, ?_⟩
  · cases a <;> simp [sock_address_equal, memcmp_eq, strcmp_eq]
  · cases a <;> cases b <;>
      simp only [sock_address_equal, SockAddress.family, memcmp_eq, strcmp_eq, ne_eq,
        not_true_eq_false, if_false, reduceCtorEq, not_false_eq_true, if_true]
    · rw [Bool.eq_iff_iff]
      simp only [Bool.and_eq_true, beq_iff_eq]
      exact ⟨fun h => ⟨h.1.symm, h.2.symm⟩, fun h => ⟨h.1.symm, h.2.symm⟩⟩
    · rw [Bool.eq_iff_iff]
      simp only [Bool.and_eq_true, beq_iff_eq]
      exact ⟨fun h => ⟨h.1.symm, h.2.symm⟩, fun h => ⟨h.1.symm, h.2.symm⟩⟩
    · rw [Bool.eq_iff_iff]
      simp only [beq_iff_eq]
      exact ⟨fun h => h.symm, fun h => h.symm⟩
  · intro h
    simp [sock_address_equal, h]

theorem terminated_step_ready (s : Int) (n : Nat) (r : Mem × Int) (h : terminated s n r) :
    step_ready s n r.1 r.2 := by
  obtain ⟨h1, h2, h3⟩ := h
  refine ⟨h1, h2, fun he => ?_⟩
  have : min r.2 (s + n - 1) = s + n - 1 := by omega
  rw [this] at h3
  exact h3

theorem same_outside_refl (s : Int) (n : Nat) (m : Mem) : same_outside s n m m :=
  fun _ _ => rfl

theorem same_outside_trans (s : Int) (n : Nat) (m0 m1 m2 : Mem)
    (h1 : same_outside s n m0 m1) (h2 : same_outside s n m1 m2) : same_outside s n m0 m2 :=
  fun q hq => (h2 q hq).trans (h1 q hq)

theorem format_char_safe (s : Int) (n : Nat) (m : Mem) (buf : Int) (c : Nat)
    (hn : 1 ≤ n) (h : step_ready s n m buf) :
    terminated s n (format_char m buf (s + n) c) ∧
      same_outside s n m (format_char m buf (s + n) c).1 := by
  obtain ⟨h1, h2, h3⟩ := h
  unfold format_char
  by_cases hlt : buf < s + n
  · by_cases heq : buf + 1 = s + n
    · simp only [hlt, heq, if_true]
      refine ⟨⟨by omega, by omega, ?_⟩, ?_⟩
      · have : min (s + ↑n) (s + ↑n - 1) = buf := by omega
        simp only [this, Mem.store, if_true, Nat.zero_mod]
      · intro q hq
        have : q ≠ buf := by omega
        simp [Mem.store, this]
    · simp only [hlt, heq, if_true, if_false]
      refine ⟨⟨by omega, by omega, ?_⟩, ?_⟩
      · have : min (buf + 1) (s + ↑n - 1) = buf + 1 := by omega
        simp only [this, Mem.store, if_true, Nat.zero_mod]
      · intro q hq
        have : q ≠ buf := by omega
        have : q ≠ buf + 1 := by omega
        simp [Mem.store, *]
  · simp only [hlt, if_false]
    have he : buf = s + n := by omega
    refine ⟨⟨by omega, by omega, ?_⟩, same_outside_refl s n m⟩
    have : min buf (s + ↑n - 1) = s + n - 1 := by omega
    simp only [this]
    exact h3 he

theorem format_chars_safe (s : Int) (n : Nat) (cs : List Nat) (hn : 1 ≤ n) :
    ∀ (m : Mem) (buf : Int), step_ready s n m buf →
      (cs ≠ [] ∨ terminated s n (m, buf)) →
      terminated s n (format_chars (s + n) cs m buf) ∧
        same_outside s n m (format_chars (s + n) cs m buf).1 := by
  induction cs with
  | nil =>
    intro m buf _ h
    rcases h with h | h
    · exact absurd rfl h
    · exact ⟨h, same_outside_refl s n m⟩
  | cons c cs ih =>
    intro m buf hr _
    obtain ⟨ht, hs⟩ := format_char_safe s n m buf c hn hr
    obtain ⟨ht2, hs2⟩ := ih (format_char m buf (s + n) c).1 (format_char m buf (s + n) c).2
      (terminated_step_ready s n _ ht) (Or.inr ht)
    exact ⟨ht2, same_outside_trans s n _ _ _ hs hs2⟩

theorem format_chars_append (end_ : Int) (xs ys : List Nat) :
    ∀ (m : Mem) (buf : Int), format_chars end_ (xs ++ ys) m buf =
      format_chars end_ ys (format_chars end_ xs m buf).1 (format_chars end_ xs m buf).2 := by
  induction xs with
  | nil => intro m buf; rfl
  | cons x xs ih =>
    intro m buf
    show format_chars end_ (xs ++ ys) _ _ = _
    rw [ih]
    rfl

theorem format_unsigned_out_eq (temp : List Nat) (end_ : Int) :
    ∀ (nn : Nat) (m : Mem) (buf : Int), nn ≤ temp.length →
      format_unsigned_out temp end_ nn m buf = format_chars end_ (temp.take nn).reverse m buf := by
  intro nn
  induction nn with
  | zero => intro m buf _; simp [format_unsigned_out, format_chars]
  | succ k ih =>
    intro m buf hk
    have hlt : k < temp.length := by omega
    have e : (temp.take (k + 1)).reverse = byte_at temp k :: (temp.take k).reverse := by
      rw [List.take_succ, List.reverse_append]
      simp [byte_at, List.getD_eq_getElem?_getD, List.getElem?_eq_getElem hlt]
    rw [e]
    simp only [format_unsigned_out, format_chars]
    exact ih _ _ (by omega)

theorem format_unsigned_eq (m : Mem) (buf end_ : Int) (val : Nat) :
    format_unsigned m buf end_ val = format_chars end_ (unsigned_text val) m buf := by
  unfold format_unsigned unsigned_text
  simp only
  rw [format_unsigned_out_eq _ _ _ _ _ (le_refl _), List.take_length]

theorem format_hex_loop_eq (end_ : Int) (val : Nat) :
    ∀ (k : Nat) (m : Mem) (buf : Int),
      format_hex_loop end_ val k m buf = format_chars end_ (hex_text_loop val k) m buf := by
  intro k
  induction k with
  | zero => intro m buf; rfl
  | succ k ih => intro m buf; simp only [format_hex_loop, hex_text_loop, format_chars, ih]

theorem format_hex_eq (m : Mem) (buf end_ : Int) (val ndigits : Nat) :
    format_hex m buf end_ val ndigits = format_chars end_ (hex_text val ndigits) m buf :=
  format_hex_loop_eq end_ _ _ m buf

theorem format_char_eq (m : Mem) (buf end_ : Int) (c : Nat) :
    format_char m buf end_ c = format_chars end_ [c] m buf := rfl

theorem format_ip4_eq (m : Mem) (buf end_ : Int) (ip : Nat) :
    format_ip4 m buf end_ ip = format_chars end_ (ip4_text ip) m buf := by
  unfold format_ip4 ip4_text
  simp only [format_unsigned_eq, format_char_eq, ← format_chars_append]

theorem format_ip6_loop_eq (end_ : Int) :
    ∀ (k nn : Nat) (ip6 : List Nat) (m : Mem) (buf : Int),
      format_ip6_loop end_ k nn ip6 m buf = format_chars end_ (ip6_text_loop k nn ip6) m buf := by
  intro k
  induction k with
  | zero => intro nn ip6 m buf; rfl
  | succ k ih =>
    intro nn ip6 m buf
    simp only [format_ip6_loop, ip6_text_loop, ip6_group_text, ih, format_chars_append]
    by_cases h1 : nn > 0 <;> by_cases h2 : (byte_at ip6 0 <<< 16 ||| byte_at ip6 1) = 0 <;>
      simp only [h1, h2, if_true, if_false, format_chars, format_hex_eq]

theorem format_ip6_eq (m : Mem) (buf end_ : Int) (ip6 : List Nat) :
    format_ip6 m buf end_ ip6 = format_chars end_ (ip6_text ip6) m buf :=
  format_ip6_loop_eq end_ 8 0 ip6 m buf

theorem sock_address_to_string_switch_eq (m : Mem) (buf end_ : Int) (a : SockAddress)
    (h : a.family ≠ .SOCKET_UNIX) :
    sock_address_to_string_switch m buf end_ a =
      format_chars end_ (sock_address_text a) m buf := by
  cases a with
  | inet ip port =>
    simp only [sock_address_to_string_switch, sock_address_text, format_ip4_eq,
      format_unsigned_eq, format_char_eq, ← format_chars_append]
  | in6 addr port =>
    simp only [sock_address_to_string_switch, sock_address_text, format_ip6_eq,
      format_unsigned_eq, format_char_eq, ← format_chars_append]
  | unix path owner => exact absurd rfl h

theorem byte_at_append_left (xs ys : List Nat) (i : Nat) (h : i < xs.length) :
    byte_at (xs ++ ys) i = byte_at xs i := by
  simp [byte_at, List.getD_eq_getElem?_getD, List.getElem?_append_left h]

theorem byte_at_append_length (xs : List Nat) (c : Nat) :
    byte_at (xs ++ [c]) xs.length = c :=
  byte_at_append_cons xs c []

theorem format_char_emitted (m0 : Mem) (s : Int) (n : Nat) (t : List Nat) (m : Mem)
    (buf : Int) (c : Nat) (hn : 1 ≤ n) (hc : c < 256) (h : emitted m0 s n t (m, buf)) :
    emitted m0 s n (t ++ [c]) (format_char m buf (s + n) c) := by
  obtain ⟨hb, hf, hcont, hnul⟩ := h
  simp only at hb hf hcont hnul
  have hlen : (t ++ [c]).length = t.length + 1 := by simp
  unfold format_char
  by_cases hlt : buf < s + n
  · have htl : t.length < n := by omega
    have hbuf : buf = s + t.length := by omega
    by_cases heq : buf + 1 = s + n
    · simp only [hlt, heq, if_true]
      refine ⟨?_, ?_, ?_, ?_⟩
      · simp only [hlen]; omega
      · intro q hq
        have : q ≠ buf := by omega
        simp only [Mem.store, this, if_false]
        exact hf q hq
      · intro i hi hin
        simp only [hlen] at hi
        have hi2 : i < t.length := by omega
        have : s + (i : Int) ≠ buf := by omega
        simp only [Mem.store, this, if_false]
        rw [byte_at_append_left t [c] i hi2]
        exact hcont i hi2 hin
      · intro _
        have : s + ((min (t ++ [c]).length (n - 1) : Nat) : Int) = buf := by
          simp only [hlen]; omega
        simp only [this, Mem.store, if_true, Nat.zero_mod]
    · simp only [hlt, heq, if_true, if_false]
      refine ⟨?_, ?_, ?_, ?_⟩
      · simp only [hlen]; omega
      · intro q hq
        have h1 : q ≠ buf := by omega
        have h2 : q ≠ buf + 1 := by omega
        simp only [Mem.store, h1, h2, if_false]
        exact hf q hq
      · intro i hi hin
        simp only [hlen] at hi
        have h2 : s + (i : Int) ≠ buf + 1 := by omega
        by_cases hi2 : i < t.length
        · have h1 : s + (i : Int) ≠ buf := by omega
          simp only [Mem.store, h1, h2, if_false]
          rw [byte_at_append_left t [c] i hi2]
          exact hcont i hi2 hin
        · have hie : i = t.length := by omega
          have h1 : s + (i : Int) = buf := by omega
          simp only [Mem.store, h1, if_true]
          have h3 : buf ≠ buf + 1 := by omega
          simp only [h3, if_false]
          rw [hie, byte_at_append_length]
          exact Nat.mod_eq_of_lt hc
      · intro _
        have : s + ((min (t ++ [c]).length (n - 1) : Nat) : Int) = buf + 1 := by
          simp only [hlen]; omega
        simp only [this, Mem.store, if_true, Nat.zero_mod]
  · simp only [hlt, if_false]
    have htl : n ≤ t.length := by omega
    have hne : t ≠ [] := by
      intro h0; rw [h0] at htl; simp at htl; omega
    refine ⟨?_, hf, ?_, ?_⟩
    · simp only [hlen]; omega
    · intro i hi hin
      have hi2 : i < t.length := by omega
      rw [byte_at_append_left t [c] i hi2]
      exact hcont i hi2 hin
    · intro _
      have : min (t ++ [c]).length (n - 1) = min t.length (n - 1) := by
        simp only [hlen]; omega
      rw [this]
      exact hnul hne

theorem format_chars_emitted (m0 : Mem) (s : Int) (n : Nat) (hn : 1 ≤ n) (cs : List Nat) :
    ∀ (t : List Nat) (m : Mem) (buf : Int), (∀ c ∈ cs, c < 256) →
      emitted m0 s n t (m, buf) →
      emitted m0 s n (t ++ cs) (format_chars (s + n) cs m buf) := by
  induction cs with
  | nil => intro t m buf _ h; simpa [format_chars] using h
  | cons c cs ih =>
    intro t m buf hc h
    have h1 := format_char_emitted m0 s n t m buf c hn (hc c (by simp)) h
    have h2 := ih (t ++ [c]) _ _ (fun x hx => hc x (by simp [hx])) h1
    simpa [format_chars] using h2

theorem emitted_start (m0 : Mem) (s : Int) (n : Nat) : emitted m0 s n [] (m0, s) := by
  refine ⟨by simp, same_outside_refl s n m0, ?_, ?_⟩
  · intro i hi; simp at hi
  · intro h; exact absurd rfl h

theorem c_str_at_spec (m : Mem) (w : List Nat) :
    ∀ (p : Int) (fuel : Nat), (∀ i : Nat, i < w.length → m (p + i) = byte_at w i) →
      (∀ b ∈ w, b ≠ 0) → m (p + w.length) = 0 → w.length < fuel →
      c_str_at m p fuel = w := by
  induction w with
  | nil =>
    intro p fuel _ _ hnul hfuel
    obtain ⟨k, rfl⟩ : ∃ k, fuel = k + 1 := ⟨fuel - 1, by simp at hfuel; omega⟩
    simp at hnul
    simp [c_str_at, hnul]
  | cons x w ih =>
    intro p fuel hw hnz hnul hfuel
    obtain ⟨k, rfl⟩ : ∃ k, fuel = k + 1 := ⟨fuel - 1, by simp at hfuel; omega⟩
    have h0 : m p = x := by
      have := hw 0 (by simp)
      simpa [byte_at] using this
    have hx : x ≠ 0 := hnz x (by simp)
    have hrec : c_str_at m (p + 1) k = w := by
      apply ih
      · intro i hi
        have := hw (i + 1) (by simp; omega)
        have e : p + ((i + 1 : Nat) : Int) = p + 1 + i := by push_cast; ring
        rw [e] at this
        simpa [byte_at] using this
      · intro b hb; exact hnz b (by simp [hb])
      · have e : p + ((x :: w).length : Int) = p + 1 + w.length := by
          simp only [List.length_cons]; push_cast; ring
        rw [e] at hnul
        exact hnul
      · simp at hfuel; omega
    simp [c_str_at, h0, hx, hrec]

theorem byte_at_take (t : List Nat) (k i : Nat) (h : i < k) :
    byte_at (t.take k) i = byte_at t i := by
  simp [byte_at, List.getD_eq_getElem?_getD, List.getElem?_take, h]

theorem emitted_c_str (m0 : Mem) (s : Int) (n : Nat) (t : List Nat) (r : Mem × Int)
    (hn : 1 ≤ n) (ht : t ≠ []) (hnz : ∀ b ∈ t, b ≠ 0) (h : emitted m0 s n t r) :
    c_str_at r.1 s n = t.take (n - 1) ∧ r.1 (s + min t.length (n - 1)) = 0 := by
  obtain ⟨_, _, hcont, hnul⟩ := h
  refine ⟨?_, hnul ht⟩
  apply c_str_at_spec
  · intro i hi
    simp only [List.length_take] at hi
    rw [byte_at_take t (n - 1) i (by omega)]
    exact hcont i (by omega) (by omega)
  · intro b hb; exact hnz b (List.mem_of_mem_take hb)
  · have := hnul ht
    simp only [List.length_take]
    have e : min (n - 1) t.length = min t.length (n - 1) := Nat.min_comm _ _
    rw [e]
    exact this
  · simp only [List.length_take]; omega

theorem format_unsigned_temp_chars :
    ∀ (fuel val : Nat), ∀ c ∈ format_unsigned_temp fuel val, 48 ≤ c ∧ c ≤ 57 := by
  intro fuel
  induction fuel with
  | zero => intro val c hc; simp [format_unsigned_temp] at hc
  | succ k ih =>
    intro val c hc
    unfold format_unsigned_temp at hc
    by_cases hv : val = 0
    · simp [hv] at hc
    · simp only [hv, if_false, List.mem_cons] at hc
      rcases hc with hc | hc
      · omega
      · exact ih _ c hc

theorem unsigned_text_chars (val : Nat) : ∀ c ∈ unsigned_text val, 48 ≤ c ∧ c ≤ 57 := by
  intro c hc
  unfold unsigned_text at hc
  simp only [List.mem_reverse] at hc
  split at hc
  · simp at hc; omega
  · exact format_unsigned_temp_chars _ _ c hc

theorem unsigned_text_ne_nil (val : Nat) : unsigned_text val ≠ [] := by
  unfold unsigned_text
  simp only [ne_eq, List.reverse_eq_nil_iff]
  split
  · simp
  · rename_i h
    intro h0
    exact h (by rw [h0]; rfl)

theorem hex_entry_range (x : Nat) : 48 ≤ byte_at hex (x &&& 15) ∧ byte_at hex (x &&& 15) ≤ 102 := by
  have h : x &&& 15 ≤ 15 := Nat.and_le_right
  generalize x &&& 15 = k at h
  interval_cases k <;> simp [byte_at, hex]

theorem hex_text_loop_chars (val : Nat) :
    ∀ (k : Nat), ∀ c ∈ hex_text_loop val k, 48 ≤ c ∧ c ≤ 102 := by
  intro k
  induction k with
  | zero => intro c hc; simp [hex_text_loop] at hc
  | succ k ih =>
    intro c hc
    simp only [hex_text_loop, List.mem_cons] at hc
    rcases hc with hc | hc
    · rw [hc]; exact hex_entry_range _
    · exact ih c hc

theorem ip6_group_text_chars (b0 b1 : Nat) : ∀ c ∈ ip6_group_text b0 b1, 48 ≤ c ∧ c ≤ 102 := by
  intro c hc
  unfold ip6_group_text at hc
  simp only at hc
  split at hc
  · simp at hc
  · exact hex_text_loop_chars _ _ c hc

theorem ip6_text_loop_chars :
    ∀ (k nn : Nat) (ip6 : List Nat), ∀ c ∈ ip6_text_loop k nn ip6, 48 ≤ c ∧ c ≤ 102 := by
  intro k
  induction k with
  | zero => intro nn ip6 c hc; simp [ip6_text_loop] at hc
  | succ k ih =>
    intro nn ip6 c hc
    simp only [ip6_text_loop, List.mem_append] at hc
    rcases hc with (hc | hc) | hc
    · split at hc
      · simp at hc; omega
      · simp at hc
    · exact ip6_group_text_chars _ _ c hc
    · exact ih _ _ c hc

theorem sock_address_text_chars (a : SockAddress) (h : a.family ≠ .SOCKET_UNIX) :
    ∀ c ∈ sock_address_text a, 0 < c ∧ c < 256 := by
  intro c hc
  cases a with
  | inet ip port =>
    simp only [sock_address_text, ip4_text, List.mem_append, List.mem_singleton] at hc
    have hu : ∀ v, c ∈ unsigned_text v → 0 < c ∧ c < 256 := fun v hv => by
      have h48 := unsigned_text_chars v c hv
      omega
    rcases hc with ((((((((hc | hc) | hc) | hc) | hc) | hc) | hc) | hc) | hc) <;>
      first
        | exact hu _ hc
        | omega
  | in6 addr port =>
    simp only [sock_address_text, ip6_text, List.mem_append, List.mem_singleton] at hc
    rcases hc with (hc | hc) | hc
    · have := ip6_text_loop_chars _ _ _ c hc; omega
    · omega
    · have := unsigned_text_chars _ c hc; omega
  | unix path owner => exact absurd rfl h

theorem sock_address_text_ne_nil (a : SockAddress) (h : a.family ≠ .SOCKET_UNIX) :
    sock_address_text a ≠ [] := by
  cases a with
  | inet ip port => simp [sock_address_text]
  | in6 addr port => simp [sock_address_text]
  | unix path owner => exact absurd rfl h

theorem ip4_text_ne_nil (ip : Nat) : ip4_text ip ≠ [] := by
  simp [ip4_text]

theorem ip6_text_ne_nil (ip6 : List Nat) : ip6_text ip6 ≠ [] := by
  simp [ip6_text, ip6_text_loop]

theorem hex_text_ne_nil (val ndigits : Nat) : hex_text val ndigits ≠ [] := by
  simp [hex_text, hex_text_loop]

theorem format_str_safe (s : Int) (n : Nat) (m : Mem) (buf : Int) (str : List Nat)
    (hn : 1 ≤ n) (h1 : s ≤ buf) (h2 : buf ≤ s + n) :
    terminated s n (format_str m buf (s + n) str) ∧
      same_outside s n m (format_str m buf (s + n) str).1 := by
  unfold format_str
  simp only
  by_cases hgt : (strlen str : Int) > s + n - buf
  · simp only [hgt, if_true]
    have e : buf + (s + ↑n - buf) = s + n := by ring
    simp only [e, if_true]
    refine ⟨⟨by omega, by omega, ?_⟩, ?_⟩
    · have : min (s + (n : Int)) (s + n - 1) = s + n - 1 := by omega
      simp only [this, Mem.store, if_true, Nat.zero_mod]
    · intro q hq
      have hq1 : q ≠ s + n - 1 := by omega
      have hq2 : ¬ (buf ≤ q ∧ q < buf + ((s + ↑n - buf).toNat : Int)) := by omega
      simp only [Mem.store, Mem.memcpy, hq1, hq2, if_false]
  · simp only [hgt, if_false]
    by_cases he : buf + (strlen str : Int) = s + n
    · simp only [he, if_true]
      refine ⟨⟨by omega, by omega, ?_⟩, ?_⟩
      · have : min (s + (n : Int)) (s + n - 1) = s + n - 1 := by omega
        simp only [this, Mem.store, if_true, Nat.zero_mod]
      · intro q hq
        have hq1 : q ≠ s + n - 1 := by omega
        have hq2 : ¬ (buf ≤ q ∧ q < buf + (((strlen str : Int)).toNat : Int)) := by omega
        simp only [Mem.store, Mem.memcpy, hq1, hq2, if_false]
    · simp only [he, if_false]
      refine ⟨⟨by omega, by omega, ?_⟩, ?_⟩
      · have : min (buf + (strlen str : Int)) (s + n - 1) = buf + strlen str := by omega
        simp only [this, Mem.store, if_true, Nat.zero_mod]
      · intro q hq
        have hq1 : q ≠ buf + strlen str := by omega
        have hq2 : ¬ (buf ≤ q ∧ q < buf + (((strlen str : Int)).toNat : Int)) := by omega
        simp only [Mem.store, Mem.memcpy, hq1, hq2, if_false]

theorem byte_at_c_str (str : List Nat) (i : Nat) (h : i < strlen str) :
    byte_at (c_str str) i = byte_at str i := by
  rw [← take_strlen]
  exact byte_at_take str (strlen str) i h

theorem format_str_c_str (s : Int) (n : Nat) (m : Mem) (str : List Nat) (hn : 1 ≤ n) :
    c_str_at (format_str m s (s + n) str).1 s n = (c_str str).take (n - 1) ∧
      (format_str m s (s + n) str).1 (s + min (c_str str).length (n - 1)) = 0 := by
  have hlen : ((c_str str).take (n - 1)).length = min (n - 1) (strlen str) := by
    simp [strlen]
  have key : ∀ i : Nat, i < min (n - 1) (strlen str) →
      (format_str m s (s + n) str).1 (s + i) = byte_at str i := by
    intro i hi
    unfold format_str
    simp only
    by_cases hgt : (strlen str : Int) > s + n - s
    · simp only [hgt, if_true]
      have e : s + (s + ↑n - s) = s + n := by ring
      simp only [e, if_true]
      have hq1 : s + (i : Int) ≠ s + n - 1 := by omega
      have hq2 : s ≤ s + (i : Int) ∧ s + (i : Int) < s + ((s + ↑n - s).toNat : Int) := by omega
      simp only [Mem.store, Mem.memcpy, hq1, hq2, if_false, and_self, if_true]
      congr 1
      omega
    · simp only [hgt, if_false]
      have hq2 : s ≤ s + (i : Int) ∧ s + (i : Int) < s + (((strlen str : Int)).toNat : Int) := by
        omega
      by_cases he : s + (strlen str : Int) = s + n
      · simp only [he, if_true]
        have hq1 : s + (i : Int) ≠ s + n - 1 := by omega
        simp only [Mem.store, Mem.memcpy, hq1, hq2, if_false, and_self, if_true]
        congr 1
        omega
      · simp only [he, if_false]
        have hq1 : s + (i : Int) ≠ s + strlen str := by omega
        simp only [Mem.store, Mem.memcpy, hq1, hq2, if_false, and_self, if_true]
        congr 1
        omega
  have hnul : (format_str m s (s + n) str).1 (s + (min (n - 1) (strlen str) : Nat)) = 0 := by
    unfold format_str
    simp only
    by_cases hgt : (strlen str : Int) > s + n - s
    · simp only [hgt, if_true]
      have e : s + (s + ↑n - s) = s + n := by ring
      simp only [e, if_true]
      have hq1 : s + ((min (n - 1) (strlen str) : Nat) : Int) = s + n - 1 := by omega
      simp only [Mem.store, hq1, if_true, Nat.zero_mod]
    · simp only [hgt, if_false]
      by_cases he : s + (strlen str : Int) = s + n
      · simp only [he, if_true]
        have hq1 : s + ((min (n - 1) (strlen str) : Nat) : Int) = s + n - 1 := by omega
        simp only [Mem.store, hq1, if_true, Nat.zero_mod]
      · simp only [he, if_false]
        have hq1 : s + ((min (n - 1) (strlen str) : Nat) : Int) = s + strlen str := by omega
        simp only [Mem.store, hq1, if_true, Nat.zero_mod]
  constructor
  · apply c_str_at_spec
    · intro i hi
      rw [hlen] at hi
      rw [byte_at_take _ _ _ (by omega), byte_at_c_str str i (by omega)]
      exact key i hi
    · intro b hb; exact c_str_nonzero str b (List.mem_of_mem_take hb)
    · rw [hlen]; exact hnul
    · rw [hlen]; omega
  · have e : min (c_str str).length (n - 1) = min (n - 1) (strlen str) := by
      unfold strlen; exact Nat.min_comm _ _
    rw [e]
    exact hnul

theorem step_ready_start (s : Int) (n : Nat) (m : Mem) (hn : 1 ≤ n) : step_ready s n m s :=
  ⟨le_refl s, by omega, fun h => by omega⟩

theorem to_string_switch_spec (m : Mem) (s : Int) (n : Nat) (a : SockAddress) (hn : 1 ≤ n) :
    terminated s n (sock_address_to_string_switch m s (s + n) a) ∧
      same_outside s n m (sock_address_to_string_switch m s (s + n) a).1 ∧
      c_str_at (sock_address_to_string_switch m s (s + n) a).1 s n
        = (sock_address_text a).take (n - 1) ∧
      (sock_address_to_string_switch m s (s + n) a).1
        (s + min (sock_address_text a).length (n - 1)) = 0 := by
  by_cases hfam : a.family = .SOCKET_UNIX
  · cases a with
    | inet ip port => exact absurd hfam (by simp [SockAddress.family])
    | in6 addr port => exact absurd hfam (by simp [SockAddress.family])
    | unix path owner =>
      obtain ⟨ht, hs⟩ := format_str_safe s n m s path hn (le_refl s) (by omega)
      obtain ⟨hc, hz⟩ := format_str_c_str s n m path hn
      exact ⟨ht, hs, hc, hz⟩
  · rw [sock_address_to_string_switch_eq m s (s + n) a hfam]
    obtain ⟨ht, hs⟩ := format_chars_safe s n (sock_address_text a) hn m s
      (step_ready_start s n m hn) (Or.inl (sock_address_text_ne_nil a hfam))
    have hem := format_chars_emitted m s n hn (sock_address_text a) [] m s
      (fun c hc => (sock_address_text_chars a hfam c hc).2) (emitted_start m s n)
    rw [List.nil_append] at hem
    obtain ⟨hc, hz⟩ := emitted_c_str m s n (sock_address_text a) _ hn
      (sock_address_text_ne_nil a hfam)
      (fun b hb => by have := (sock_address_text_chars a hfam b hb).1; omega) hem
    exact ⟨ht, hs, hc, hz⟩

theorem to_string_result_eq_text (MAX_PATH : Nat) (buf0 : Int) (m : Mem) (a : SockAddress)
    (hsize : 1 ≤ MAX_PATH) (hlen : (sock_address_text a).length ≤ MAX_PATH - 1) :
    sock_address_to_string_result MAX_PATH buf0 m a = sock_address_text a := by
  unfold sock_address_to_string_result sock_address_to_string
  simp only
  rw [(to_string_switch_spec m buf0 MAX_PATH a hsize).2.2.1]
  exact List.take_of_length_le hlen

/-- C8. In a buffer of `n >= 1` bytes at `s`, each of `format_char`, `format_str`,
`format_unsigned`, `format_hex`, `format_ip4` and `format_ip6`, started at a position
`buf` of the buffer reached by earlier steps, changes no byte outside the buffer,
returns a position between the start and the end of the buffer, and leaves a nul at
that position (in the last byte when the position is the end). The formatting of
`sock_address_to_string`, started at `s`, has the same three properties, and the
buffer then holds, nul-terminated, the first `n - 1` characters of the text of the
address (all of it when it fits). -/
theorem format_stays_in_buffer (m : Mem) (s : Int) (n : Nat) (buf : Int) (c val ndigits ip : Nat)
    (str ip6 : List Nat) (a : SockAddress) (hn : 1 ≤ n) (hready : step_ready s n m buf) :
    (terminated s n (format_char m buf (s + n) c) ∧
      same_outside s n m (format_char m buf (s + n) c).1) ∧
    (terminated s n (format_str m buf (s + n) str) ∧
      same_outside s n m (format_str m buf (s + n) str).1) ∧
    (terminated s n (format_unsigned m buf (s + n) val) ∧
      same_outside s n m (format_unsigned m buf (s + n) val).1) ∧
    (terminated s n (format_hex m buf (s + n) val ndigits) ∧
      same_outside s n m (format_hex m buf (s + n) val ndigits).1) ∧
    (terminated s n (format_ip4 m buf (s + n) ip) ∧
      same_outside s n m (format_ip4 m buf (s + n) ip).1) ∧
    (terminated s n (format_ip6 m buf (s + n) ip6) ∧
      same_outside s n m (format_ip6 m buf (s + n) ip6).1) ∧
    (terminated s n (sock_address_to_string_switch m s (s + n) a) ∧
      same_outside s n m (sock_address_to_string_switch m s (s + n) a).1 ∧
      c_str_at (sock_address_to_string_switch m s (s + n) a).1 s n
        = (sock_address_text a).take (n - 1) ∧
      (sock_address_to_string_switch m s (s + n) a).1
        (s + min (sock_address_text a).length (n - 1)) = 0) := by
  refine ⟨format_char_safe s n m buf c hn hready,
    format_str_safe s n m buf str hn hready.1 hready.2.1, ?_, ?_, ?_, ?_, ?_⟩
  · rw [format_unsigned_eq]
    exact format_chars_safe s n _ hn m buf hready (Or.inl (unsigned_text_ne_nil val))
  · rw [format_hex_eq]
    exact format_chars_safe s n _ hn m buf hready (Or.inl (hex_text_ne_nil val ndigits))
  · rw [format_ip4_eq]
    exact format_chars_safe s n _ hn m buf hready (Or.inl (ip4_text_ne_nil ip))
  · rw [format_ip6_eq]
    exact format_chars_safe s n _ hn m buf hready (Or.inl (ip6_text_ne_nil ip6))
  · exact to_string_switch_spec m s n a hn

/-- Witness for C8: 127.0.0.1 port 80 formatted into a buffer of 8 bytes at address 0
of a memory full of 0xff bytes. -/
theorem format_stays_in_buffer_witness :
    terminated 0 8 (sock_address_to_string_switch (fun _ => 255) 0 (0 + (8 : Nat))
      (.inet 0x7f000001 80)) ∧
    same_outside 0 8 (fun _ => 255) (sock_address_to_string_switch (fun _ => 255) 0
      (0 + (8 : Nat)) (.inet 0x7f000001 80)).1 ∧
    c_str_at (sock_address_to_string_switch (fun _ => 255) 0 (0 + (8 : Nat))
      (.inet 0x7f000001 80)).1 0 8 = (sock_address_text (.inet 0x7f000001 80)).take (8 - 1) ∧
    (sock_address_to_string_switch (fun _ => 255) 0 (0 + (8 : Nat)) (.inet 0x7f000001 80)).1
      (0 + min (sock_address_text (.inet 0x7f000001 80)).length (8 - 1)) = 0 :=
  (format_stays_in_buffer (fun _ => 255) 0 8 0 58 127 4 0x7f000001 [97]
    [0, 0, 0, 0, 0, 0, 0, 0, 0, 0, 0, 0, 0, 0, 0, 1] (.inet 0x7f000001 80) (by decide)
    ⟨by decide, by decide, fun h => absurd h (by decide)⟩).2.2.2.2.2.2

theorem format_unsigned_temp_digits :
    ∀ (fuel val : Nat), val ≤ fuel →
      format_unsigned_temp fuel val = (Nat.digits 10 val).map (fun d => 48 + d) := by
  intro fuel
  induction fuel with
  | zero =>
    intro val h
    have : val = 0 := by omega
    subst this
    simp [format_unsigned_temp]
  | succ k ih =>
    intro val h
    unfold format_unsigned_temp
    by_cases hv : val = 0
    · simp [hv]
    · simp only [hv, if_false]
      rw [Nat.digits_def' (by decide) (Nat.pos_of_ne_zero hv), List.map_cons,
        ih (val / 10) (by omega)]

theorem unsigned_text_eq_decimal (v : Nat) (h : v < 2 ^ 32) : unsigned_text v = decimal v := by
  unfold unsigned_text decimal
  simp only [Nat.mod_eq_of_lt h, format_unsigned_temp_digits v v (le_refl v)]
  by_cases hv : v = 0
  · simp [hv]
  · have : Nat.digits 10 v ≠ [] := Nat.digits_ne_nil_iff_ne_zero.mpr hv
    simp [hv, this, List.map_reverse]

theorem digits_length_le (k : Nat) : ∀ v : Nat, v < 10 ^ k → (Nat.digits 10 v).length ≤ k := by
  induction k with
  | zero =>
    intro v hv
    have : v = 0 := by simpa using hv
    simp [this]
  | succ k ih =>
    intro v hv
    by_cases h0 : v = 0
    · simp [h0]
    · rw [Nat.digits_def' (by decide) (Nat.pos_of_ne_zero h0), List.length_cons]
      have : v / 10 < 10 ^ k := by
        rw [Nat.div_lt_iff_lt_mul (by decide)]
        rw [pow_succ] at hv
        exact hv
      have := ih _ this
      omega

theorem decimal_length_le (k v : Nat) (hk : 1 ≤ k) (hv : v < 10 ^ k) :
    (decimal v).length ≤ k := by
  unfold decimal
  split
  · simpa using hk
  · simpa using digits_length_le k v hv

/-- C9. For every INET value with 32-bit address `ip` and 16-bit port `p`, when the
static buffer has room for 22 bytes, the string that `sock_address_to_string` returns
is the four octets of `ip` from the most significant to the least significant, each in
decimal without leading zeros, separated by '.', followed by ':' and `p` in decimal
without leading zeros; zero prints as "0". -/
theorem inet_to_string_dotted_decimal (MAX_PATH : Nat) (buf0 : Int) (m : Mem) (ip port : Nat)
    (hsize : 22 ≤ MAX_PATH) (hip : ip < 2 ^ 32) (hport : port < 2 ^ 16) :
    sock_address_to_string_result MAX_PATH buf0 m (.inet ip port) =
      decimal (ip / 2 ^ 24) ++ [46] ++ decimal (ip / 2 ^ 16 % 256) ++ [46]
        ++ decimal (ip / 2 ^ 8 % 256) ++ [46] ++ decimal (ip % 256) ++ [58] ++ decimal port ∧
    decimal 0 = [48] := by
  have h1 : ip / 2 ^ 24 < 256 := by omega
  have h2 : ip / 2 ^ 16 % 256 < 256 := Nat.mod_lt _ (by decide)
  have h3 : ip / 2 ^ 8 % 256 < 256 := Nat.mod_lt _ (by decide)
  have h4 : ip % 256 < 256 := Nat.mod_lt _ (by decide)
  have a1 : (ip >>> 16) &&& 255 = ip / 2 ^ 16 % 256 := by
    rw [Nat.shiftRight_eq_div_pow]
    exact Nat.and_pow_two_sub_one_eq_mod _ 8
  have a2 : (ip >>> 8) &&& 255 = ip / 2 ^ 8 % 256 := by
    rw [Nat.shiftRight_eq_div_pow]
    exact Nat.and_pow_two_sub_one_eq_mod _ 8
  have a3 : ip &&& 255 = ip % 256 := Nat.and_pow_two_sub_one_eq_mod _ 8
  have htext : sock_address_text (.inet ip port) =
      decimal (ip / 2 ^ 24) ++ [46] ++ decimal (ip / 2 ^ 16 % 256) ++ [46]
        ++ decimal (ip / 2 ^ 8 % 256) ++ [46] ++ decimal (ip % 256) ++ [58] ++ decimal port := by
    simp only [sock_address_text, ip4_text]
    rw [a1, a2, a3, Nat.shiftRight_eq_div_pow]
    rw [unsigned_text_eq_decimal _ (by omega), unsigned_text_eq_decimal _ (by omega),
      unsigned_text_eq_decimal _ (by omega), unsigned_text_eq_decimal _ (by omega),
      unsigned_text_eq_decimal _ (by omega)]
  have hlen : (sock_address_text (.inet ip port)).length ≤ 21 := by
    rw [htext]
    have l1 := decimal_length_le 3 (ip / 2 ^ 24) (by decide) (by omega)
    have l2 := decimal_length_le 3 (ip / 2 ^ 16 % 256) (by decide) (by omega)
    have l3 := decimal_length_le 3 (ip / 2 ^ 8 % 256) (by decide) (by omega)
    have l4 := decimal_length_le 3 (ip % 256) (by decide) (by omega)
    have l5 := decimal_length_le 5 port (by decide) (by omega)
    simp only [List.length_append, List.length_singleton]
    omega
  have hres : sock_address_to_string_result MAX_PATH buf0 m (.inet ip port) =
      sock_address_text (.inet ip port) :=
    to_string_result_eq_text MAX_PATH buf0 m _ (by omega) (by omega)
  exact ⟨by rw [hres, htext], by decide⟩

/-- Witness for C9: address 0x7f000001 with port 80 gives "127.0.0.1:80", and the
zero address with port 0 gives "0.0.0.0:0", in a buffer of 260 bytes. -/
theorem inet_to_string_dotted_decimal_witness :
    sock_address_to_string_result 260 0 (fun _ => 255) (.inet 0x7f000001 80)
      = [49, 50, 55, 46, 48, 46, 48, 46, 49, 58, 56, 48] ∧
    sock_address_to_string_result 260 0 (fun _ => 255) (.inet 0 0)
      = [48, 46, 48, 46, 48, 46, 48, 58, 48] :=
  ⟨(inet_to_string_dotted_decimal 260 0 (fun _ => 255) 0x7f000001 80 (by decide) (by decide)
      (by decide)).1.trans (by simp [decimal]),
   (inet_to_string_dotted_decimal 260 0 (fun _ => 255) 0 0 (by decide) (by decide)
      (by decide)).1.trans (by simp [decimal])⟩

theorem hex_entry_mem (x : Nat) : byte_at hex (x &&& 15) ∈ hex := by
  have h : x &&& 15 ≤ 15 := Nat.and_le_right
  generalize x &&& 15 = k at h
  interval_cases k <;> simp [byte_at, hex]

theorem hex_text_loop_mem (val : Nat) : ∀ (k : Nat), ∀ c ∈ hex_text_loop val k, c ∈ hex := by
  intro k
  induction k with
  | zero => intro c hc; simp [hex_text_loop] at hc
  | succ k ih =>
    intro c hc
    simp only [hex_text_loop, List.mem_cons] at hc
    rcases hc with hc | hc
    · rw [hc]; exact hex_entry_mem _
    · exact ih c hc

theorem ip6_group_val (b0 b1 : Nat) (h1 : b1 < 256) : (b0 <<< 16) ||| b1 = b0 * 65536 + b1 := by
  rw [Nat.shiftLeft_eq, Nat.mul_comm]
  exact (Nat.mul_add_lt_is_or (by omega : b1 < 2 ^ 16) b0).symm

theorem and_15 (x : Nat) : x &&& 15 = x % 16 := Nat.and_pow_two_sub_one_eq_mod x 4

theorem ip6_group_text_cases (b0 b1 : Nat) (h0 : b0 < 256) (h1 : b1 < 256) :
    ip6_group_text b0 b1 = [] ∨
    ip6_group_text b0 b1 = [byte_at hex (b0 % 16), byte_at hex 0, byte_at hex 0,
      byte_at hex (b1 / 16), byte_at hex (b1 % 16)] := by
  unfold ip6_group_text
  simp only
  by_cases hv : (b0 <<< 16) ||| b1 = 0
  · left; simp [hv]
  · right
    rw [if_neg hv, ip6_group_val b0 b1 h1]
    have hm : (b0 * 65536 + b1) % 2 ^ 32 = b0 * 65536 + b1 := Nat.mod_eq_of_lt (by omega)
    simp only [hex_text, hex_text_loop, hm, and_15, Nat.shiftRight_eq_div_pow]
    have e1 : (b0 * 65536 + b1) / 2 ^ (4 * 4) % 16 = b0 % 16 := by omega
    have e2 : (b0 * 65536 + b1) / 2 ^ (4 * 3) % 16 = 0 := by omega
    have e3 : (b0 * 65536 + b1) / 2 ^ (4 * 2) % 16 = 0 := by omega
    have e4 : (b0 * 65536 + b1) / 2 ^ (4 * 1) % 16 = b1 / 16 := by omega
    have e5 : (b0 * 65536 + b1) / 2 ^ (4 * 0) % 16 = b1 % 16 := by omega
    rw [e1, e2, e3, e4, e5]

theorem ip6_group_text_length_le (b0 b1 : Nat) (h0 : b0 < 256) (h1 : b1 < 256) :
    (ip6_group_text b0 b1).length ≤ 5 := by
  rcases ip6_group_text_cases b0 b1 h0 h1 with h | h <;> simp [h]

theorem ip6_text_groups (b0 b1 b2 b3 b4 b5 b6 b7 b8 b9 b10 b11 b12 b13 b14 b15 : Nat) :
    ip6_text [b0, b1, b2, b3, b4, b5, b6, b7, b8, b9, b10, b11, b12, b13, b14, b15] =
      List.intercalate [58] [ip6_group_text b0 b1, ip6_group_text b2 b3, ip6_group_text b4 b5,
        ip6_group_text b6 b7, ip6_group_text b8 b9, ip6_group_text b10 b11,
        ip6_group_text b12 b13, ip6_group_text b14 b15] := by
  simp [ip6_text, ip6_text_loop, List.intercalate, byte_at]

set_option maxRecDepth 4000 in
/-- C10 fails on the code: for the IN6 address 2001:db8::1 with port 80 the string
that `sock_address_to_string` returns is "00001:d00b8::::::00001:80"; the group of the
byte pair 0x20, 0x01 is "00001", not "2001". Every group that is printed has five
digits: the digit of the low four bits of the first byte, two zero digits, and the two
digits of the second byte; the high four bits of the first byte are not printed. -/
theorem in6_group_is_not_the_16_bit_word :
    sock_address_to_string_result 260 0 (fun _ => 255)
        (.in6 [0x20, 0x01, 0x0d, 0xb8, 0, 0, 0, 0, 0, 0, 0, 0, 0, 0, 0, 1] 80)
      = [48, 48, 48, 48, 49, 58, 100, 48, 48, 98, 56, 58, 58, 58, 58, 58, 58, 48, 48, 48, 48,
          49, 58, 56, 48] ∧
    ip6_group_text 0x20 0x01 = [48, 48, 48, 48, 49] ∧
    ip6_group_text 0x20 0x01 ≠ [50, 48, 48, 49] ∧
    ∀ b0 b1 : Nat, b0 < 256 → b1 < 256 → ip6_group_text b0 b1 ≠ [] →
      ip6_group_text b0 b1 = [byte_at hex (b0 % 16), byte_at hex 0, byte_at hex 0,
        byte_at hex (b1 / 16), byte_at hex (b1 % 16)] := by
  refine ⟨?_, by decide, by decide, ?_⟩
  · decide
  · intro b0 b1 h0 h1 hne
    rcases ip6_group_text_cases b0 b1 h0 h1 with h | h
    · exact absurd h hne
    · exact h

theorem byte_at_lt_256 (l : List Nat) (i : Nat) (h : ∀ b ∈ l, b < 256) : byte_at l i < 256 := by
  unfold byte_at
  rw [List.getD_eq_getElem?_getD]
  cases hi : l[i]? with
  | none => simp
  | some v =>
    obtain ⟨hlt, hv⟩ := List.getElem?_eq_some_iff.mp hi
    have : v ∈ l := hv ▸ List.getElem_mem hlt
    simpa using h v this

theorem resolve_scan_prefer4 (res : List addrinfo) :
    ∀ res_ipv6 : Option addrinfo,
      resolve_select false (resolve_scan false res none res_ipv6).1
          (resolve_scan false res none res_ipv6).2 =
        first_present (first_of_family AF_INET res)
          (first_present res_ipv6 (first_of_family AF_INET6 res)) := by
  have hne : AF_INET6 ≠ AF_INET := by decide
  induction res with
  | nil => intro r6; cases r6 <;> rfl
  | cons r rest ih =>
    intro r6
    by_cases h4 : r.ai_family = AF_INET
    · simp [resolve_scan, resolve_select, first_of_family, first_present, h4]
    · by_cases h6 : r.ai_family = AF_INET6
      · cases r6 with
        | none =>
          have hstep : resolve_scan false (r :: rest) none none =
              resolve_scan false rest none (some r) := by
            simp [resolve_scan, h4, h6, hne, hne.symm]
          rw [hstep, ih (some r)]
          simp [first_of_family, first_present, h4, h6, hne, hne.symm]
        | some x =>
          have hstep : resolve_scan false (r :: rest) none (some x) =
              resolve_scan false rest none (some x) := by
            simp [resolve_scan, h4, h6, hne, hne.symm]
          rw [hstep, ih (some x)]
          simp [first_of_family, first_present, h4, hne, hne.symm]
      · have hstep : resolve_scan false (r :: rest) none r6 =
            resolve_scan false rest none r6 := by
          simp [resolve_scan, h4, h6, hne, hne.symm]
        rw [hstep, ih r6]
        simp [first_of_family, first_present, h4, h6, hne, hne.symm]

theorem resolve_scan_prefer6 (res : List addrinfo) :
    ∀ res_ipv4 : Option addrinfo,
      resolve_select true (resolve_scan true res res_ipv4 none).1
          (resolve_scan true res res_ipv4 none).2 =
        first_present (first_of_family AF_INET6 res)
          (first_present res_ipv4 (first_of_family AF_INET res)) := by
  have hne : AF_INET6 ≠ AF_INET := by decide
  induction res with
  | nil => intro r4; cases r4 <;> rfl
  | cons r rest ih =>
    intro r4
    by_cases h6 : r.ai_family = AF_INET6
    · have h4 : r.ai_family ≠ AF_INET := fun h => hne (h6.symm.trans h)
      have hstep : resolve_scan true (r :: rest) r4 none = (r4, some r) := by
        simp [resolve_scan, h4, h6, hne, hne.symm]
      rw [hstep]
      simp [resolve_select, first_of_family, first_present, h6, hne, hne.symm]
    · by_cases h4 : r.ai_family = AF_INET
      · cases r4 with
        | none =>
          have hstep : resolve_scan true (r :: rest) none none =
              resolve_scan true rest (some r) none := by
            simp [resolve_scan, h4, h6, hne, hne.symm]
          rw [hstep, ih (some r)]
          simp [first_of_family, first_present, h4, h6, hne, hne.symm]
        | some x =>
          have hstep : resolve_scan true (r :: rest) (some x) none =
              resolve_scan true rest (some x) none := by
            simp [resolve_scan, h4, h6, hne, hne.symm]
          rw [hstep, ih (some x)]
          simp [first_of_family, first_present, h6, hne, hne.symm]
      · have hstep : resolve_scan true (r :: rest) r4 none =
            resolve_scan true rest r4 none := by
          simp [resolve_scan, h4, h6, hne, hne.symm]
        rw [hstep, ih r4]
        simp [first_of_family, first_present, h4, h6, hne, hne.symm]

theorem resolve_scan_preferred (preferIn6 : Bool) (res : List addrinfo) :
    resolve_select preferIn6 (resolve_scan preferIn6 res none none).1
        (resolve_scan preferIn6 res none none).2 = preferred_entry preferIn6 res := by
  cases preferIn6 with
  | false =>
    rw [resolve_scan_prefer4]
    simp [preferred_entry, first_present]
  | true =>
    rw [resolve_scan_prefer6]
    simp [preferred_entry, first_present]

theorem from_bsd_inet_ok (a : SockAddress) (src : List Nat) (fromlen : Nat) (errno : Int)
    (hfam : sa_family src = AF_INET) (hlen : sizeof_sockaddr_in ≤ fromlen) :
    (sock_address_from_bsd a src fromlen errno).ret = 0 ∧
    (sock_address_from_bsd a src fromlen errno).errno = errno ∧
    (sock_address_from_bsd a src fromlen errno).a.family = .SOCKET_INET := by
  have hl : ¬ fromlen < sizeof_sockaddr_in := by omega
  simp [sock_address_from_bsd, hfam, hl, SockAddress.family]

theorem from_bsd_in6_ok (a : SockAddress) (src : List Nat) (fromlen : Nat) (errno : Int)
    (hfam : sa_family src = AF_INET6) (hlen : sizeof_sockaddr_in6 ≤ fromlen) :
    (sock_address_from_bsd a src fromlen errno).ret = 0 ∧
    (sock_address_from_bsd a src fromlen errno).errno = errno ∧
    (sock_address_from_bsd a src fromlen errno).a.family = .SOCKET_IN6 := by
  have hl : ¬ fromlen < sizeof_sockaddr_in6 := by omega
  have hne : AF_INET6 ≠ AF_INET := by decide
  simp [sock_address_from_bsd, hfam, hl, hne, SockAddress.family]

theorem preferred_entry_family (preferIn6 : Bool) (res : List addrinfo) (r : addrinfo)
    (h : preferred_entry preferIn6 res = some r) :
    r ∈ res ∧ (r.ai_family = AF_INET ∨ r.ai_family = AF_INET6) := by
  have key : ∀ fam, first_of_family fam res = some r → r ∈ res ∧ r.ai_family = fam := by
    intro fam hf
    unfold first_of_family at hf
    have h1 := List.mem_of_find?_eq_some hf
    have h2 := List.find?_some hf
    exact ⟨h1, by simpa using h2⟩
  unfold preferred_entry first_present at h
  cases preferIn6 with
  | false =>
    simp only [Bool.false_eq_true, if_false] at h
    cases h4 : first_of_family AF_INET res with
    | some x =>
      rw [h4] at h
      simp only [Option.some.injEq] at h
      subst h
      exact ⟨(key _ h4).1, Or.inl (key _ h4).2⟩
    | none =>
      rw [h4] at h
      exact ⟨(key _ h).1, Or.inr (key _ h).2⟩
  | true =>
    simp only [if_true] at h
    cases h6 : first_of_family AF_INET6 res with
    | some x =>
      rw [h6] at h
      simp only [Option.some.injEq] at h
      subst h
      exact ⟨(key _ h6).1, Or.inr (key _ h6).2⟩
    | none =>
      rw [h6] at h
      exact ⟨(key _ h).1, Or.inl (key _ h).2⟩

theorem set_port_family_cases (a : SockAddress) (port : Nat) (h : a.family ≠ .SOCKET_UNIX) :
    sock_address_get_port (sock_address_set_port a port) = port ∧
    (sock_address_set_port a port).family = a.family := by
  cases a with
  | inet ip p => exact ⟨rfl, rfl⟩
  | in6 addr p => exact ⟨rfl, rfl⟩
  | unix path owner => exact absurd rfl h

theorem init_resolve_port_switch (a : SockAddress) (port : Nat) :
    (match a with
      | .inet address _ => SockAddress.inet address port
      | .in6 address _ => SockAddress.in6 address port
      | other => other) = sock_address_set_port a port := by
  cases a <;> rfl

/-- C11. Given a resolver call that succeeds with the list `L` of entries as a
resolver produces them, and a caller port `p`: when `L` has no `AF_INET` and no
`AF_INET6` entry, `sock_address_init_resolve` returns -1 with `errno` set to `ENOENT`
and the output untouched; otherwise it returns 0 and the output is the conversion by
`sock_address_from_bsd` of the preferred entry (with `preferIn6` false the first
`AF_INET` entry, else the first `AF_INET6` entry; with `preferIn6` true the first
`AF_INET6` entry, else the first `AF_INET` entry) with its port replaced by `p`. -/
theorem init_resolve_prefers_family (getaddrinfo : Resolver) (a : SockAddress)
    (hostname : List Nat) (p : Nat) (preferIn6 : Bool) (errno : Int) (L : List addrinfo)
    (hres : getaddrinfo hostname none (if preferIn6 then AF_INET6 else AF_UNSPEC) = (0, L))
    (hwf : ∀ r ∈ L, r.wf) :
    (preferred_entry preferIn6 L = none →
      sock_address_init_resolve getaddrinfo a hostname p preferIn6 errno
        = { ret := -1, a := a, errno := ENOENT }) ∧
    (∀ r : addrinfo, preferred_entry preferIn6 L = some r →
      (sock_address_init_resolve getaddrinfo a hostname p preferIn6 errno).ret = 0 ∧
      (sock_address_init_resolve getaddrinfo a hostname p preferIn6 errno).errno = errno ∧
      (sock_address_init_resolve getaddrinfo a hostname p preferIn6 errno).a =
        sock_address_set_port (sock_address_from_bsd a r.ai_addr r.ai_addrlen errno).a p ∧
      sock_address_get_port
        (sock_address_init_resolve getaddrinfo a hostname p preferIn6 errno).a = p ∧
      socket_family_to_bsd
        (sock_address_init_resolve getaddrinfo a hostname p preferIn6 errno).a.family
          = r.ai_family) := by
  constructor
  · intro hnone
    unfold sock_address_init_resolve
    simp only [hres, ne_eq, not_true_eq_false, if_false, resolve_scan_preferred, hnone,
      _set_errno]
  · intro r hsome
    obtain ⟨hmem, hfamr⟩ := preferred_entry_family preferIn6 L r hsome
    obtain ⟨hsa, h4, h6⟩ := hwf r hmem
    have hconv : (sock_address_from_bsd a r.ai_addr r.ai_addrlen errno).ret = 0 ∧
        (sock_address_from_bsd a r.ai_addr r.ai_addrlen errno).errno = errno ∧
        socket_family_to_bsd (sock_address_from_bsd a r.ai_addr r.ai_addrlen errno).a.family
          = r.ai_family ∧
        (sock_address_from_bsd a r.ai_addr r.ai_addrlen errno).a.family ≠ .SOCKET_UNIX := by
      rcases hfamr with hf | hf
      · obtain ⟨e1, e2, e3⟩ := from_bsd_inet_ok a r.ai_addr r.ai_addrlen errno
          (hsa.trans hf) (h4 hf)
        refine ⟨e1, e2, ?_, ?_⟩
        · rw [e3, hf]; rfl
        · rw [e3]; decide
      · obtain ⟨e1, e2, e3⟩ := from_bsd_in6_ok a r.ai_addr r.ai_addrlen errno
          (hsa.trans hf) (h6 hf)
        refine ⟨e1, e2, ?_, ?_⟩
        · rw [e3, hf]; rfl
        · rw [e3]; decide
    obtain ⟨c1, c2, c3, c4⟩ := hconv
    have hval : sock_address_init_resolve getaddrinfo a hostname p preferIn6 errno =
        { ret := 0,
          a := sock_address_set_port (sock_address_from_bsd a r.ai_addr r.ai_addrlen errno).a p,
          errno := errno } := by
      unfold sock_address_init_resolve
      simp only [hres, ne_eq, not_true_eq_false, if_false, resolve_scan_preferred, hsome,
        c1, c2, lt_self_iff_false, init_resolve_port_switch]
    rw [hval]
    obtain ⟨s1, s2⟩ := set_port_family_cases _ p c4
    exact ⟨rfl, rfl, rfl, s1, by simp only; rw [s2]; exact c3⟩

/-- Witness for C11: a resolver answering with the IPv6 loopback entry followed by
the entry of 127.0.0.1, asked without IPv6 preference and with port 8080. -/
theorem init_resolve_prefers_family_witness :
    (sock_address_init_resolve
        (fun _ _ _ => (0, [⟨10, [10, 0, 0, 0, 0, 0, 0, 0, 0, 0, 0, 0, 0, 0, 0, 0, 0, 0, 0, 0, 0,
          0, 0, 1, 0, 0, 0, 0], 28⟩, ⟨2, [2, 0, 0, 0, 127, 0, 0, 1, 0, 0, 0, 0, 0, 0, 0, 0], 16⟩]))
        (.inet 0 0) [108, 111, 99, 97, 108, 104, 111, 115, 116] 8080 false 0).ret = 0 ∧
    (sock_address_init_resolve
        (fun _ _ _ => (0, [⟨10, [10, 0, 0, 0, 0, 0, 0, 0, 0, 0, 0, 0, 0, 0, 0, 0, 0, 0, 0, 0, 0,
          0, 0, 1, 0, 0, 0, 0], 28⟩, ⟨2, [2, 0, 0, 0, 127, 0, 0, 1, 0, 0, 0, 0, 0, 0, 0, 0], 16⟩]))
        (.inet 0 0) [108, 111, 99, 97, 108, 104, 111, 115, 116] 8080 false 0).a
      = .inet 0x7f000001 8080 :=
  have h := (init_resolve_prefers_family
    (fun _ _ _ => (0, [⟨10, [10, 0, 0, 0, 0, 0, 0, 0, 0, 0, 0, 0, 0, 0, 0, 0, 0, 0, 0, 0, 0,
      0, 0, 1, 0, 0, 0, 0], 28⟩, ⟨2, [2, 0, 0, 0, 127, 0, 0, 1, 0, 0, 0, 0, 0, 0, 0, 0], 16⟩]))
    (.inet 0 0) [108, 111, 99, 97, 108, 104, 111, 115, 116] 8080 false 0 _ rfl
    (by decide)).2 ⟨2, [2, 0, 0, 0, 127, 0, 0, 1, 0, 0, 0, 0, 0, 0, 0, 0], 16⟩ (by decide)
  ⟨h.1, h.2.2.1.trans (by decide)⟩

/-- C12. When the resolver call fails with code `r`, `sock_address_init_resolve`
returns -1, leaves the output untouched and sets `errno` to `EHOSTDOWN` if `r` is
`EAI_AGAIN` or `EAI_FAIL`, to `ENOENT` if `r` is `EAI_NONAME` or `EAI_NODATA`, to
`ENOMEM` if `r` is `EAI_MEMORY`, and to `EINVAL` for every other non-zero `r`. -/
theorem init_resolve_maps_resolver_failure (getaddrinfo : Resolver) (a : SockAddress)
    (hostname : List Nat) (p : Nat) (preferIn6 : Bool) (errno : Int) (r : Int)
    (L : List addrinfo)
    (hres : getaddrinfo hostname none (if preferIn6 then AF_INET6 else AF_UNSPEC) = (r, L))
    (hr : r ≠ 0) :
    (sock_address_init_resolve getaddrinfo a hostname p preferIn6 errno).ret = -1 ∧
    (sock_address_init_resolve getaddrinfo a hostname p preferIn6 errno).a = a ∧
    ((r = EAI_AGAIN ∨ r = EAI_FAIL) →
      (sock_address_init_resolve getaddrinfo a hostname p preferIn6 errno).errno
        = EHOSTDOWN) ∧
    ((r = EAI_NONAME ∨ r = EAI_NODATA) →
      (sock_address_init_resolve getaddrinfo a hostname p preferIn6 errno).errno = ENOENT) ∧
    (r = EAI_MEMORY →
      (sock_address_init_resolve getaddrinfo a hostname p preferIn6 errno).errno = ENOMEM) ∧
    (r ≠ EAI_AGAIN → r ≠ EAI_FAIL → r ≠ EAI_NONAME → r ≠ EAI_NODATA → r ≠ EAI_MEMORY →
      (sock_address_init_resolve getaddrinfo a hostname p preferIn6 errno).errno = EINVAL) := by
  unfold sock_address_init_resolve
  simp only [hres, ne_eq, hr, not_false_eq_true, if_true, _set_errno]
  refine ⟨trivial, trivial, ?_, ?_, ?_, ?_⟩
  · intro h
    rw [if_pos h]
  · intro h
    have h1 : ¬ (r = EAI_AGAIN ∨ r = EAI_FAIL) := by
      rcases h with h | h <;> rw [h] <;> decide
    rw [if_neg h1, if_pos h.symm]
  · intro h
    have h1 : ¬ (r = EAI_AGAIN ∨ r = EAI_FAIL) := by rw [h]; decide
    have h2 : ¬ (r = EAI_NODATA ∨ r = EAI_NONAME) := by rw [h]; decide
    rw [if_neg h1, if_neg h2, if_pos h]
  · intro h1 h2 h3 h4 h5
    rw [if_neg (by tauto), if_neg (by tauto), if_neg h5]

/-- Witness for C12: a resolver failing with `EAI_NONAME`. -/
theorem init_resolve_maps_resolver_failure_witness :
    (sock_address_init_resolve (fun _ _ _ => (EAI_NONAME, [])) (.inet 1 2) [120] 80 false 0).ret
      = -1 ∧
    (sock_address_init_resolve (fun _ _ _ => (EAI_NONAME, [])) (.inet 1 2) [120] 80 false 0).a
      = .inet 1 2 ∧
    (sock_address_init_resolve (fun _ _ _ => (EAI_NONAME, [])) (.inet 1 2) [120] 80 false 0).errno
      = ENOENT :=
  have h := init_resolve_maps_resolver_failure (fun _ _ _ => (EAI_NONAME, [])) (.inet 1 2)
    [120] 80 false 0 EAI_NONAME [] rfl (by decide)
  ⟨h.1, h.2.1, h.2.2.2.1 (Or.inl rfl)⟩

/-- C15. `sock_address_get_port` returns the stored port of an INET or IN6 value and
-1 for a UNIX value; `sock_address_set_port` on an INET or IN6 value replaces the port
and nothing else, so that `sock_address_get_port` then returns the new port, and on a
UNIX value it changes nothing. -/
theorem get_port_set_port (ip port : Nat) (addr path : List Nat) (owner : Bool) (p : Nat) :
    sock_address_get_port (.inet ip port) = port ∧
    sock_address_get_port (.in6 addr port) = port ∧
    sock_address_get_port (.unix path owner) = -1 ∧
    sock_address_set_port (.inet ip port) p = .inet ip p ∧
    sock_address_get_port (sock_address_set_port (.inet ip port) p) = p ∧
    sock_address_set_port (.in6 addr port) p = .in6 addr p ∧
    sock_address_get_port (sock_address_set_port (.in6 addr port) p) = p ∧
    sock_address_set_port (.unix path owner) p = .unix path owner :=
  ⟨rfl, rfl, rfl, rfl, rfl, rfl, rfl, rfl⟩

theorem sock_address_done_twice (a : SockAddress) :
    sock_address_done (sock_address_done a).1 = ((sock_address_done a).1, []) := by
  cases a with
  | inet ip port => rfl
  | in6 addr port => rfl
  | unix path owner => cases owner <;> rfl

theorem sock_address_done_times_released (n : Nat) :
    ∀ a : SockAddress, sock_address_done a = (a, []) →
      sock_address_done_times n a = (a, []) := by
  induction n with
  | zero => intro a _; rfl
  | succ k ih =>
    intro a h
    simp only [sock_address_done_times, h, ih a h, List.append_nil]

/-- C20. `sock_address_done` hands the path of a UNIX value to `free` only when the
owner flag is set, and clears the flag; on an INET or IN6 value and on a UNIX value
that does not own its path it frees nothing and leaves the value unchanged; so does a
second call on the same value; and over any number of calls on the same value at most
one `free` happens. -/
theorem sock_address_done_frees_once (ip port : Nat) (addr path : List Nat)
    (a : SockAddress) (n : Nat) :
    sock_address_done (.unix path true) = (.unix path false, [path]) ∧
    sock_address_done (.unix path false) = (.unix path false, []) ∧
    sock_address_done (.inet ip port) = (.inet ip port, []) ∧
    sock_address_done (.in6 addr port) = (.in6 addr port, []) ∧
    sock_address_done (sock_address_done a).1 = ((sock_address_done a).1, []) ∧
    (sock_address_done_times n a).2.length ≤ 1 ∧
    (sock_address_done_times (n + 1) a).1 = (sock_address_done a).1 ∧
    (sock_address_done_times (n + 1) a).2 = (sock_address_done a).2 := by
  have hrest := sock_address_done_times_released n (sock_address_done a).1
    (sock_address_done_twice a)
  have hsucc : sock_address_done_times (n + 1) a =
      ((sock_address_done a).1, (sock_address_done a).2) := by
    simp only [sock_address_done_times, hrest, List.append_nil]
  have hone : (sock_address_done a).2.length ≤ 1 := by
    cases a with
    | inet ip port => simp [sock_address_done]
    | in6 addr port => simp [sock_address_done]
    | unix path owner => cases owner <;> simp [sock_address_done]
  refine ⟨rfl, rfl, rfl, rfl, sock_address_done_twice a, ?_, by rw [hsucc], by rw [hsucc]⟩
  cases n with
  | zero => simp [sock_address_done_times]
  | succ k =>
    have hrest2 := sock_address_done_times_released k (sock_address_done a).1
      (sock_address_done_twice a)
    simp only [sock_address_done_times, hrest2, List.append_nil]
    exact hone

theorem call_trace (w : World) (c : NativeCall) : (w.call c).2.trace = w.trace ++ [c] := by
  unfold World.call
  cases w.pending <;> rfl

theorem call_pending_length (w : World) (c : NativeCall) :
    (w.call c).2.pending.length = w.pending.length - 1 := by
  unfold World.call
  cases h : w.pending <;> simp [h]

theorem call_ret_of_empty (w : World) (c : NativeCall) (h : w.pending = []) :
    (w.call c).1.ret = 0 := by
  unfold World.call
  rw [h]

theorem qsocket_loop_fuel (c : NativeCall) :
    ∀ (fuel : Nat) (w : World), w.pending.length ≤ fuel →
      QSOCKET_CALL_loop c fuel w = QSOCKET_CALL_loop c w.pending.length w := by
  intro fuel
  induction fuel with
  | zero =>
    intro w h
    have : w.pending.length = 0 := by omega
    rw [this]
  | succ k ih =>
    intro w h
    cases hp : w.pending with
    | nil =>
      have h0 := call_ret_of_empty w c hp
      have hn : ¬ ((w.call c).1.ret < 0 ∧ (w.call c).2.errno = EINTR) := by
        rw [h0]; intro hh; exact absurd hh.1 (by decide)
      simp only [List.length_nil, QSOCKET_CALL_loop, hn, if_false]
    | cons r rest =>
      have hlen : (w.call c).2.pending.length = rest.length := by
        rw [call_pending_length, hp]; simp
      have hk : (w.call c).2.pending.length ≤ k := by
        rw [hlen]; rw [hp] at h; simp at h; omega
      simp only [List.length_cons, QSOCKET_CALL_loop, ih _ hk, hlen]

theorem qsocket_loop_trace (c : NativeCall) :
    ∀ (fuel : Nat) (w : World),
      ∃ k : Nat, (QSOCKET_CALL_loop c fuel w).2.trace = w.trace ++ List.replicate (k + 1) c := by
  intro fuel
  induction fuel with
  | zero => intro w; exact ⟨0, call_trace w c⟩
  | succ n ih =>
    intro w
    unfold QSOCKET_CALL_loop
    simp only
    by_cases h : (w.call c).1.ret < 0 ∧ (w.call c).2.errno = EINTR
    · rw [if_pos h]
      obtain ⟨k, hk⟩ := ih (w.call c).2
      refine ⟨k + 1, ?_⟩
      rw [hk, call_trace, List.append_assoc]
      congr 1
    · rw [if_neg h]
      exact ⟨0, call_trace w c⟩

theorem QSOCKET_CALL_trace (c : NativeCall) (w : World) :
    ∃ k : Nat, (QSOCKET_CALL c w).2.trace = w.trace ++ List.replicate (k + 1) c :=
  qsocket_loop_trace c _ _

theorem SOCKET_CALL_trace (c : NativeCall) (w : World) :
    ∃ k : Nat, (SOCKET_CALL c w).2.trace = w.trace ++ List.replicate (k + 1) c := by
  obtain ⟨k, hk⟩ := QSOCKET_CALL_trace c w
  refine ⟨k, ?_⟩
  unfold SOCKET_CALL
  simp only
  split <;> exact hk

theorem socket_close_spec (fd : Int) (w : World) :
    (socket_close fd w).errno = w.errno ∧
    (socket_close fd w).trace = w.trace ++ [.shutdown fd SHUT_RDWR, .close fd] := by
  unfold socket_close
  simp only [call_trace, List.append_assoc, List.singleton_append, and_self]

theorem socket_set_xreuseaddr_trace (fd : Int) (w : World) :
    (socket_set_xreuseaddr fd w).2.trace =
      w.trace ++ [.setsockopt fd SOL_SOCKET SO_REUSEADDR 1] := by
  unfold socket_set_xreuseaddr socket_setoption
  simp only [call_trace]

theorem to_bsd_ret_cases (a : SockAddress) (paddress : List Nat) (psize : Nat) (errno : Int) :
    (sock_address_to_bsd a paddress psize errno).ret = 0 ∨
    (sock_address_to_bsd a paddress psize errno).ret = -1 := by
  cases a with
  | inet ip port => left; rfl
  | in6 addr port => left; rfl
  | unix path owner =>
    unfold sock_address_to_bsd
    simp only
    split
    · right; rfl
    · left; rfl

theorem to_bsd_local_length (address : SockAddress) (errno : Int) :
    (sock_address_to_bsd address (List.replicate sizeof_sockaddr 0) 0 errno).paddress.length =
      match address with
      | .inet _ _ => sizeof_sockaddr
      | .in6 _ _ => sizeof_sockaddr_in6
      | .unix path _ =>
          if strlen path ≥ UNIX_PATH_MAX then sizeof_sockaddr else sizeof_sockaddr_un := by
  cases address with
  | inet ip port =>
    simp [sock_address_to_bsd, memset, store_at, host16, htons_bytes, htonl_bytes,
      sizeof_sockaddr, sizeof_sockaddr_in]
  | in6 addr port =>
    simp only [sock_address_to_bsd, memset, store_at, host16, htons_bytes,
      sizeof_sockaddr, sizeof_sockaddr_in6, List.length_append, List.length_take,
      List.length_drop, List.length_replicate, List.length_cons, List.length_nil]
    omega
  | unix path owner =>
    have hs := strlen_le_length path
    by_cases h : strlen path ≥ UNIX_PATH_MAX
    · simp [sock_address_to_bsd, h]
    · have h2 : strlen path < 107 := by
        have : UNIX_PATH_MAX = 107 := rfl
        omega
      simp only [sock_address_to_bsd, h, if_false, memset, store_at, host16,
        sizeof_sockaddr, sizeof_sockaddr_un, offsetof_sun_path, sizeof_sun_path,
        List.length_append, List.length_take, List.length_drop, List.length_replicate,
        List.length_cons, List.length_nil]
      omega

theorem socket_bind_eq_none_iff (fd : Int) (address : SockAddress) (w : World) :
    socket_bind fd address w = none ↔
      ((∃ addr port, address = .in6 addr port) ∨
       (∃ path owner, address = .unix path owner ∧ strlen path < UNIX_PATH_MAX)) := by
  have hlen := to_bsd_local_length address w.errno
  unfold socket_bind
  simp only
  cases address with
  | inet ip port =>
    simp only at hlen
    rw [hlen]
    simp
    split <;> simp
  | in6 addr port =>
    simp only at hlen
    rw [hlen]
    simp [sizeof_sockaddr, sizeof_sockaddr_in6]
  | unix path owner =>
    simp only at hlen
    rw [hlen]
    by_cases h : strlen path ≥ UNIX_PATH_MAX
    · simp [h]
      constructor
      · intro hn; split at hn <;> simp at hn
      · intro hlt; omega
    · simp [h, sizeof_sockaddr, sizeof_sockaddr_un, offsetof_sun_path, sizeof_sun_path]
      omega
theorem socket_bind_trace (fd : Int) (address : SockAddress) (w : World) (b : Int × World)
    (hb : socket_bind fd address w = some b) :
    ∃ k : Nat,
      b.2.trace = w.trace ++ List.replicate k
        (NativeCall.bind fd
          ((sock_address_to_bsd address (List.replicate sizeof_sockaddr 0) 0
            w.errno).paddress.take
            (sock_address_to_bsd address (List.replicate sizeof_sockaddr 0) 0 w.errno).psize)
          (sock_address_to_bsd address (List.replicate sizeof_sockaddr 0) 0 w.errno).psize) ∧
      ((sock_address_to_bsd address (List.replicate sizeof_sockaddr 0) 0 w.errno).ret = 0 →
        1 ≤ k) ∧
      (0 ≤ b.1 → 1 ≤ k) := by
  unfold socket_bind at hb
  simp only at hb
  split at hb
  · exact absurd hb (by simp)
  · rcases to_bsd_ret_cases address (List.replicate sizeof_sockaddr 0) 0 w.errno with h | h
    · have hn : ¬ ((sock_address_to_bsd address (List.replicate sizeof_sockaddr 0) 0
          w.errno).ret < 0) := by rw [h]; decide
      rw [if_neg hn] at hb
      obtain ⟨k, hk⟩ := SOCKET_CALL_trace (NativeCall.bind fd
        ((sock_address_to_bsd address (List.replicate sizeof_sockaddr 0) 0
          w.errno).paddress.take
          (sock_address_to_bsd address (List.replicate sizeof_sockaddr 0) 0 w.errno).psize)
        (sock_address_to_bsd address (List.replicate sizeof_sockaddr 0) 0 w.errno).psize)
        { w with errno := (sock_address_to_bsd address (List.replicate sizeof_sockaddr 0) 0
          w.errno).errno }
      have hbe := Option.some.inj hb
      rw [← hbe]
      exact ⟨k + 1, hk, fun _ => by omega, fun _ => by omega⟩
    · have hn : (sock_address_to_bsd address (List.replicate sizeof_sockaddr 0) 0
          w.errno).ret < 0 := by rw [h]; decide
      rw [if_pos hn] at hb
      have hbe := Option.some.inj hb
      rw [← hbe]
      refine ⟨0, by simp, fun h0 => ?_, fun h0 => ?_⟩
      · rw [h] at h0; exact absurd h0 (by decide)
      · simp only at h0
        omega

/-- C16. For a family or a type that `socket_family_to_bsd` or `socket_type_to_bsd`
does not map, `socket_create` returns -1 with `errno` set to `EINVAL` and makes no
native call (the trace and the pending answers are untouched); for every mapped pair
it calls the native `socket` with the mapped constants and protocol 0, once or, after
interruptions, several times, and nothing else. -/
theorem socket_create_unmapped_or_native (family : SocketFamily) (type : SocketType)
    (w : World) :
    ((∃ v, family = .other v) ∨ (∃ v, type = .other v) →
      socket_create family type w = (-1, { w with errno := EINVAL })) ∧
    (¬ ((∃ v, family = .other v) ∨ (∃ v, type = .other v)) →
      ∃ k : Nat, (socket_create family type w).2.trace =
        w.trace ++ List.replicate (k + 1)
          (NativeCall.socket (socket_family_to_bsd family) (socket_type_to_bsd type) 0)) ∧
    socket_family_to_bsd .SOCKET_INET = AF_INET ∧
    socket_family_to_bsd .SOCKET_IN6 = AF_INET6 ∧
    socket_family_to_bsd .SOCKET_UNIX = AF_LOCAL ∧
    socket_type_to_bsd .SOCKET_DGRAM = SOCK_DGRAM ∧
    socket_type_to_bsd .SOCKET_STREAM = SOCK_STREAM := by
  refine ⟨?_, ?_, rfl, rfl, rfl, rfl, rfl⟩
  · intro h
    have hneg : socket_family_to_bsd family < 0 ∨ socket_type_to_bsd type < 0 := by
      rcases h with ⟨v, rfl⟩ | ⟨v, rfl⟩
      · left; show (-1 : Int) < 0; decide
      · right; show (-1 : Int) < 0; decide
    simp only [socket_create, hneg, if_true, _set_errno]
  · intro h
    have hpos : ¬ (socket_family_to_bsd family < 0 ∨ socket_type_to_bsd type < 0) := by
      intro hneg
      apply h
      rcases hneg with hn | hn
      · left
        cases family with
        | SOCKET_INET => exact absurd hn (by decide)
        | SOCKET_IN6 => exact absurd hn (by decide)
        | SOCKET_UNIX => exact absurd hn (by decide)
        | other v => exact ⟨v, rfl⟩
      · right
        cases type with
        | SOCKET_DGRAM => exact absurd hn (by decide)
        | SOCKET_STREAM => exact absurd hn (by decide)
        | other v => exact ⟨v, rfl⟩
    obtain ⟨k, hk⟩ := QSOCKET_CALL_trace
      (NativeCall.socket (socket_family_to_bsd family) (socket_type_to_bsd type) 0) w
    refine ⟨k, ?_⟩
    simp only [socket_create, hpos, if_false]
    split <;> exact hk

theorem socket_bind_server_eq_none_iff (s : Int) (to_ : SockAddress) (type : SocketType)
    (w : World) :
    socket_bind_server s to_ type w = none ↔
      socket_bind s to_ (socket_set_xreuseaddr s w).2 = none := by
  unfold socket_bind_server
  simp only
  cases h : socket_bind s to_ (socket_set_xreuseaddr s w).2 <;> simp

/-- The native calls of `socket_bind_server` when the conversion of the address stays
within the local `addr` of `socket_bind`. With `w1` the world after
`socket_set_xreuseaddr`, `b` the outcome of `socket_bind` and `l` the outcome of
`socket_listen` with backlog 4 after it: the calls are the `setsockopt`, then the
`bind` calls (at least one when the address converts), then the `listen` calls with
backlog 4 (none unless the type is STREAM and the bind succeeded, at least one then),
and, when the bind failed or (STREAM only) the listen failed, `shutdown` and `close`
of `s`, in which case the result is -1; otherwise the result is `s`, which is not
closed. -/
theorem socket_bind_server_trace (s : Int) (to_ : SockAddress) (type : SocketType)
    (w w1 : World) (b l : Int × World)
    (hw1 : w1 = (socket_set_xreuseaddr s w).2) (hb : socket_bind s to_ w1 = some b)
    (hl : l = socket_listen s 4 b.2) :
    ∃ kb kl : Nat, ∃ r : Int × World,
      socket_bind_server s to_ type w = some r ∧
      ((sock_address_to_bsd to_ (List.replicate sizeof_sockaddr 0) 0 w1.errno).ret = 0 →
        1 ≤ kb) ∧
      (0 ≤ b.1 → 1 ≤ kb) ∧
      (type ≠ .SOCKET_STREAM → kl = 0) ∧
      (b.1 < 0 → kl = 0) ∧
      (type = .SOCKET_STREAM → 0 ≤ b.1 → 1 ≤ kl) ∧
      ((b.1 < 0 ∨ (type = .SOCKET_STREAM ∧ l.1 < 0)) →
        r.1 = -1 ∧
        r.2.trace =
          w.trace ++ [.setsockopt s SOL_SOCKET SO_REUSEADDR 1]
            ++ List.replicate kb (NativeCall.bind s
                ((sock_address_to_bsd to_ (List.replicate sizeof_sockaddr 0) 0
                  w1.errno).paddress.take
                  (sock_address_to_bsd to_ (List.replicate sizeof_sockaddr 0) 0 w1.errno).psize)
                (sock_address_to_bsd to_ (List.replicate sizeof_sockaddr 0) 0 w1.errno).psize)
            ++ List.replicate kl (NativeCall.listen s 4)
            ++ [.shutdown s SHUT_RDWR, .close s]) ∧
      (¬ (b.1 < 0 ∨ (type = .SOCKET_STREAM ∧ l.1 < 0)) →
        r.1 = s ∧
        r.2.trace =
          w.trace ++ [.setsockopt s SOL_SOCKET SO_REUSEADDR 1]
            ++ List.replicate kb (NativeCall.bind s
                ((sock_address_to_bsd to_ (List.replicate sizeof_sockaddr 0) 0
                  w1.errno).paddress.take
                  (sock_address_to_bsd to_ (List.replicate sizeof_sockaddr 0) 0 w1.errno).psize)
                (sock_address_to_bsd to_ (List.replicate sizeof_sockaddr 0) 0 w1.errno).psize)
            ++ List.replicate kl (NativeCall.listen s 4)) := by
  obtain ⟨kb, hkb, hkb1, hkb2⟩ := socket_bind_trace s to_ w1 b hb
  obtain ⟨kl', hkl⟩ := SOCKET_CALL_trace (NativeCall.listen s 4) b.2
  have hw1t : w1.trace = w.trace ++ [.setsockopt s SOL_SOCKET SO_REUSEADDR 1] := by
    rw [hw1]; exact socket_set_xreuseaddr_trace s w
  have hbt : b.2.trace = w.trace ++ [.setsockopt s SOL_SOCKET SO_REUSEADDR 1]
      ++ List.replicate kb (NativeCall.bind s
          ((sock_address_to_bsd to_ (List.replicate sizeof_sockaddr 0) 0
            w1.errno).paddress.take
            (sock_address_to_bsd to_ (List.replicate sizeof_sockaddr 0) 0 w1.errno).psize)
          (sock_address_to_bsd to_ (List.replicate sizeof_sockaddr 0) 0 w1.errno).psize) := by
    rw [hkb, hw1t]
  have hlt : l.2.trace = b.2.trace ++ List.replicate (kl' + 1) (NativeCall.listen s 4) := by
    rw [hl]; exact hkl
  have hdef : socket_bind_server s to_ type w = some (
      if b.1 < 0 then (-1, socket_close s b.2)
      else if type = .SOCKET_STREAM then
        (if l.1 < 0 then (-1, socket_close s l.2) else (s, l.2))
      else (s, b.2)) := by
    unfold socket_bind_server
    simp only
    rw [← hw1, hb, hl]
  by_cases hbneg : b.1 < 0
  · refine ⟨kb, 0, _, hdef, hkb1, hkb2, fun _ => rfl, fun _ => rfl,
      fun _ h => by omega, ?_, ?_⟩
    · intro _
      rw [if_pos hbneg]
      refine ⟨rfl, ?_⟩
      simp only [(socket_close_spec s b.2).2, hbt, List.replicate_zero, List.append_nil]
    · intro h; exact absurd (Or.inl hbneg) h
  · by_cases hst : type = .SOCKET_STREAM
    · refine ⟨kb, kl' + 1, _, hdef, hkb1, hkb2, fun h => absurd hst h,
        fun h => absurd h hbneg, fun _ _ => by omega, ?_, ?_⟩
      · intro h
        have hlneg : l.1 < 0 := by
          rcases h with h | h
          · exact absurd h hbneg
          · exact h.2
        rw [if_neg hbneg, if_pos hst, if_pos hlneg]
        refine ⟨rfl, ?_⟩
        simp only [(socket_close_spec s l.2).2, hlt, hbt]
      · intro h
        have hlpos : ¬ l.1 < 0 := fun hl0 => h (Or.inr ⟨hst, hl0⟩)
        rw [if_neg hbneg, if_pos hst, if_neg hlpos]
        exact ⟨rfl, by simp only [hlt, hbt]⟩
    · refine ⟨kb, 0, _, hdef, hkb1, hkb2, fun _ => rfl, fun _ => rfl,
        fun h => absurd h hst, ?_, ?_⟩
      · intro h
        rcases h with h | h
        · exact absurd h hbneg
        · exact absurd h.1 hst
      · intro _
        rw [if_neg hbneg, if_neg hst]
        exact ⟨rfl, by simp only [hbt, List.replicate_zero, List.append_nil]⟩

/-- C17 fails on the code. `socket_bind` converts the address into its local
`struct sockaddr addr` of 16 bytes; for the UNIX path "a" the conversion clears 110
bytes there and for an IN6 address it stores 28 bytes, so the behaviour of
`socket_bind_server` is undefined before any `bind` or `listen` is made: the result
is `none`. This is the case for every IN6 address and for every UNIX address whose
path `sock_address_to_bsd` accepts, and for no other address. For the INET address
127.0.0.1:80 and type STREAM the calls are `setsockopt`, `bind`, `listen` with
backlog 4, and the result is the handle. -/
theorem bind_server_overruns_local_sockaddr :
    sizeof_sockaddr = 16 ∧
    (sock_address_to_bsd (.unix [97] true) (List.replicate sizeof_sockaddr 0) 0
      0).paddress.length = 110 ∧
    (sock_address_to_bsd (.in6 [0, 0, 0, 0, 0, 0, 0, 0, 0, 0, 0, 0, 0, 0, 0, 1] 80)
      (List.replicate sizeof_sockaddr 0) 0 0).paddress.length = 28 ∧
    socket_bind_server 5 (.unix [97] true) .SOCKET_STREAM ⟨0, [], []⟩ = none ∧
    socket_bind_server 5 (.unix [97] true) .SOCKET_DGRAM ⟨0, [], []⟩ = none ∧
    socket_bind_server 5 (.in6 [0, 0, 0, 0, 0, 0, 0, 0, 0, 0, 0, 0, 0, 0, 0, 1] 80)
      .SOCKET_STREAM ⟨0, [], []⟩ = none ∧
    (∀ (s : Int) (to_ : SockAddress) (type : SocketType) (w : World),
      socket_bind_server s to_ type w = none ↔
        ((∃ addr port, to_ = .in6 addr port) ∨
         (∃ path owner, to_ = .unix path owner ∧ strlen path < UNIX_PATH_MAX))) ∧
    socket_bind_server 5 (.inet 0x7f000001 80) .SOCKET_STREAM ⟨0, [], []⟩ =
      some (5, ⟨0, [.setsockopt 5 SOL_SOCKET SO_REUSEADDR 1,
        .bind 5 [2, 0, 0, 80, 127, 0, 0, 1, 0, 0, 0, 0, 0, 0, 0, 0] 16,
        .listen 5 4], []⟩) := by
  refine ⟨rfl, by decide, by decide, by decide, by decide, by decide, ?_, by decide⟩
  intro s to_ type w
  rw [socket_bind_server_eq_none_iff]
  exact socket_bind_eq_none_iff s to_ _

/-- C18. When the native `accept` of `socket_accept` ends with a handle `h >= 0`:
without an address output `socket_accept` returns `h` and makes no further native
call; with an address output whose conversion by `sock_address_from_bsd` succeeds it
returns `h` and the converted address and makes no further native call; when the
conversion fails it shuts down and closes `h` and returns -1. -/
theorem accept_closes_on_conversion_failure (fd : Int) (w : World)
    (r : NativeResult × World) (hr : r = QSOCKET_CALL (.accept fd) w) (hok : 0 ≤ r.1.ret) :
    (∃ k : Nat, r.2.trace = w.trace ++ List.replicate (k + 1) (NativeCall.accept fd)) ∧
    socket_accept fd none w = (r.1.ret, none, r.2) ∧
    (∀ a : SockAddress,
      (sock_address_from_bsd a r.1.addr r.1.addrlen r.2.errno).ret < 0 →
        (socket_accept fd (some a) w).1 = -1 ∧
        (socket_accept fd (some a) w).2.2.trace =
          r.2.trace ++ [.shutdown r.1.ret SHUT_RDWR, .close r.1.ret]) ∧
    (∀ a : SockAddress,
      ¬ (sock_address_from_bsd a r.1.addr r.1.addrlen r.2.errno).ret < 0 →
        (socket_accept fd (some a) w).1 = r.1.ret ∧
        (socket_accept fd (some a) w).2.1 =
          some (sock_address_from_bsd a r.1.addr r.1.addrlen r.2.errno).a ∧
        (socket_accept fd (some a) w).2.2.trace = r.2.trace) := by
  have hnn : ¬ (QSOCKET_CALL (.accept fd) w).1.ret < 0 := by rw [← hr]; omega
  refine ⟨by rw [hr]; exact QSOCKET_CALL_trace _ w, ?_, ?_, ?_⟩
  · simp only [socket_accept, hnn, if_false, hr]
  · intro a hf
    rw [hr] at hf
    simp only [socket_accept, hnn, if_false, hf, if_true, hr]
    exact ⟨trivial, (socket_close_spec _ _).2⟩
  · intro a hf
    rw [hr] at hf
    simp only [socket_accept, hnn, if_false, hf, hr]
    exact ⟨trivial, trivial, trivial⟩

/-- Witness for C18: the native `accept` answers with handle 9 and a two-byte
`AF_LOCAL` address, which `sock_address_from_bsd` rejects. -/
theorem accept_closes_on_conversion_failure_witness :
    (socket_accept 3 (some (.inet 0 0)) ⟨7, [], [⟨9, 0, [1, 0, 0], 2⟩]⟩).1 = -1 ∧
    (socket_accept 3 (some (.inet 0 0)) ⟨7, [], [⟨9, 0, [1, 0, 0], 2⟩]⟩).2.2.trace =
      (QSOCKET_CALL (.accept 3) ⟨7, [], [⟨9, 0, [1, 0, 0], 2⟩]⟩).2.trace
        ++ [.shutdown (QSOCKET_CALL (.accept 3) ⟨7, [], [⟨9, 0, [1, 0, 0], 2⟩]⟩).1.ret SHUT_RDWR,
            .close (QSOCKET_CALL (.accept 3) ⟨7, [], [⟨9, 0, [1, 0, 0], 2⟩]⟩).1.ret] :=
  (accept_closes_on_conversion_failure 3 ⟨7, [], [⟨9, 0, [1, 0, 0], 2⟩]⟩ _ rfl
    (by decide)).2.2.1 (.inet 0 0) (by decide)

/-- C19. For every handle, every value of `errno` before the call and every pair of
answers of the native `shutdown` and `close`, `errno` after `socket_close` is its
value before the call; the calls made are `shutdown` of both directions, then
`close`. The same holds for the `_WIN32` variant, which registers the draining
handler instead of closing. -/
theorem socket_close_keeps_errno (fd : Int) (SD_BOTH : Int) (w : World) :
    (socket_close fd w).errno = w.errno ∧
    (socket_close fd w).trace = w.trace ++ [.shutdown fd SHUT_RDWR, .close fd] ∧
    (socket_close_win32 fd SD_BOTH w).errno = w.errno ∧
    (socket_close_win32 fd SD_BOTH w).trace =
      w.trace ++ [.shutdown fd SD_BOTH, .qemu_set_fd_handler fd] := by
  refine ⟨(socket_close_spec fd w).1, (socket_close_spec fd w).2, rfl, ?_⟩
  unfold socket_close_win32
  simp only [call_trace, List.append_assoc, List.singleton_append]

theorem Win32.fix_errno_unset (st : Win32.State)
    (h : st.winsock_error = 0 ∨ st.winsock_error = -1) :
    Win32._fix_errno st = (-1, { st with errno := .EINVAL }) := by
  unfold Win32._fix_errno
  rcases h with h | h <;> rw [h] <;> rfl

theorem Win32.set_errno_winsock_error (code : Win32.Errno) (st : Win32.State) :
    (Win32._set_errno code st).2.winsock_error = -1 := rfl

/-- C13 fails on the code: on the `_WIN32` build the static `winsock_error` is only
ever assigned -1 (by `_set_errno`) and never receives `WSAGetLastError()`. A native
call failing with `WSAECONNREFUSED`, which the table maps to `ECONNREFUSED`, makes
`SOCKET_CALL` return -1 with `errno` set to `EINVAL`, both with the initial
`winsock_error` of 0 and after a `_set_errno`; `socket_send` failing with
`WSAECONNRESET` likewise ends with `EINVAL`, not `ECONNRESET`. -/
theorem winsock_fix_errno_ignores_last_error :
    Win32.fix_errno_loop Win32.WSAECONNREFUSED Win32._winsock_errors .EINVAL
      = .ECONNREFUSED ∧
    Win32.SOCKET_CALL ⟨.EAGAIN, 0, 0, [(-1, Win32.WSAECONNREFUSED)]⟩
      = (-1, ⟨.EINVAL, 0, Win32.WSAECONNREFUSED, []⟩) ∧
    Win32.SOCKET_CALL (Win32._set_errno .EAGAIN ⟨.EAGAIN, 0, 0, [(-1, Win32.WSAECONNREFUSED)]⟩).2
      = (-1, ⟨.EINVAL, -1, Win32.WSAECONNREFUSED, []⟩) ∧
    Win32.fix_errno_loop Win32.WSAECONNRESET Win32._winsock_errors .EINVAL = .ECONNRESET ∧
    Win32.socket_send 3 [104, 105] 2 ⟨.EAGAIN, 0, 0, [(-1, Win32.WSAECONNRESET)]⟩
      = (-1, ⟨.EINVAL, 0, Win32.WSAECONNRESET, []⟩) := by
  decide

/-- C14 fails on the code in its second half: `_errno_str` returns the description of
the table when `winsock_error` has an entry, but when no entry matches (here
`winsock_error` is -1, as `_set_errno` leaves it, and 0, its initial value) it
returns "<unknown error>", whatever `strerror(errno)` is: `result` starts as that
string and is never `NULL`. -/
theorem winsock_errno_str_never_uses_strerror :
    Win32._errno_str (fun _ => "Invalid argument") ⟨.EINVAL, Win32.WSAECONNREFUSED, 0, []⟩
      = "connection refused" ∧
    Win32._errno_str (fun _ => "Invalid argument") ⟨.EINVAL, -1, 0, []⟩ = "<unknown error>" ∧
    Win32._errno_str (fun _ => "Invalid argument") ⟨.EINVAL, 0, 0, []⟩ = "<unknown error>" ∧
    Win32._errno_str (fun _ => "Invalid argument") ⟨.EINVAL, -1, 0, []⟩
      ≠ (fun _ => "Invalid argument") Win32.Errno.EINVAL := by
  decide

theorem Win32.errno_str_loop_some (winsock_error : Int) (table : List Win32.WinsockError) :
    ∀ s : String, ∃ s2 : String,
      Win32.errno_str_loop winsock_error table (some s) = some s2 := by
  induction table with
  | nil => intro s; exact ⟨s, rfl⟩
  | cons werr rest ih =>
    intro s
    unfold Win32.errno_str_loop
    split
    · exact ⟨_, rfl⟩
    · exact ih s

theorem Win32.errno_str_independent_of_strerror (f g : Win32.Errno → String)
    (st : Win32.State) : Win32._errno_str f st = Win32._errno_str g st := by
  unfold Win32._errno_str
  obtain ⟨s2, h⟩ := Win32.errno_str_loop_some st.winsock_error Win32._winsock_errors
    "<unknown error>"
  simp only [h]

theorem Win32.fix_errno_loop_find (c : Int) (table : List Win32.WinsockError)
    (unix : Win32.Errno) :
    Win32.fix_errno_loop c table unix =
      match table.find? (fun werr => werr.winsock = c) with
      | some werr => werr.unix
      | none => unix := by
  induction table with
  | nil => rfl
  | cons werr rest ih =>
    unfold Win32.fix_errno_loop
    by_cases h : werr.winsock = c
    · simp [h]
    · simp only [h, if_false, ih]
      simp [List.find?_cons, h]

/-- C21. On the `_WIN32` build, for every value of `winsock_error`, `_fix_errno`
returns -1, sets `errno` to the portable code of the first entry of the table whose
native code is that value, or to `EINVAL` when no entry has it, and changes nothing
else; with `winsock_error` equal to `WSAEALREADY`, which the table lists twice, the
result is `EALREADY`, and with `WSAEWOULDBLOCK` it is `EAGAIN`. -/
theorem winsock_fix_errno_first_entry (st : Win32.State) :
    (Win32._fix_errno st).1 = -1 ∧
    (Win32._fix_errno st).2.errno =
      (match Win32._winsock_errors.find? (fun werr => werr.winsock = st.winsock_error) with
        | some werr => werr.unix
        | none => .EINVAL) ∧
    (Win32._fix_errno st).2.winsock_error = st.winsock_error ∧
    (Win32._fix_errno st).2.last_error = st.last_error ∧
    (Win32._fix_errno st).2.pending = st.pending ∧
    (Win32._winsock_errors.filter (fun werr => werr.winsock = Win32.WSAEALREADY)).map
        (fun werr => werr.unix) = [.EALREADY, .EAGAIN] ∧
    (Win32._fix_errno { st with winsock_error := Win32.WSAEALREADY }).2.errno = .EALREADY ∧
    (Win32._fix_errno { st with winsock_error := Win32.WSAEWOULDBLOCK }).2.errno = .EAGAIN := by
  refine ⟨rfl, ?_, rfl, rfl, rfl, by decide, rfl, rfl⟩
  unfold Win32._fix_errno
  exact Win32.fix_errno_loop_find _ _ _

/-- C22 fails on the code when `preferIn6` is set: the family hint handed to the
resolver is then `AF_INET6`, not `AF_UNSPEC`. For a host whose only address is
127.0.0.1 and a resolver that honours the hint, `sock_address_init_resolve` without
IPv6 preference yields 127.0.0.1 with the caller's port, and with IPv6 preference it
fails with `ENOENT` instead of falling back to the IPv4 address; the service name is
`NULL` in both cases. -/
theorem init_resolve_ipv6_hint_excludes_ipv4 :
    sock_address_init_resolve ipv4_only_host (.inet 0 0)
        [108, 111, 99, 97, 108, 104, 111, 115, 116] 80 false 0
      = { ret := 0, a := .inet 0x7f000001 80, errno := 0 } ∧
    sock_address_init_resolve ipv4_only_host (.inet 0 0)
        [108, 111, 99, 97, 108, 104, 111, 115, 116] 80 true 0
      = { ret := -1, a := .inet 0 0, errno := ENOENT } ∧
    sock_address_init_resolve
        (fun _ _ family => if family = AF_UNSPEC then (0, [loopback_ipv4_entry])
          else (EAI_FAIL, []))
        (.inet 0 0) [108, 111, 99, 97, 108, 104, 111, 115, 116] 80 true 0
      = { ret := -1, a := .inet 0 0, errno := EHOSTDOWN } ∧
    preferred_entry true [loopback_ipv4_entry] = some loopback_ipv4_entry := by
  decide

theorem init_resolve_hint (getaddrinfo : Resolver) (a : SockAddress) (hostname : List Nat)
    (port : Nat) (errno : Int) :
    sock_address_init_resolve getaddrinfo a hostname port true errno =
      sock_address_init_resolve (fun h _ _ => getaddrinfo h none AF_INET6) a hostname port
        true errno ∧
    sock_address_init_resolve getaddrinfo a hostname port false errno =
      sock_address_init_resolve (fun h _ _ => getaddrinfo h none AF_UNSPEC) a hostname port
        false errno :=
  ⟨rfl, rfl⟩

theorem take_16_of_length (l : List Nat) (h : l.length = 16) : l.take 16 = l :=
  List.take_of_length_le (by omega)

/-- C24. For address values within the ranges of their fields, `sock_address_equal`
is true exactly when the two values have the same family and, for INET, the same
address and the same port; for IN6, the same 16 address bytes and the same port; for
UNIX, the same path string, whatever the owner flags. -/
theorem sock_address_equal_iff (a b : SockAddress) (ha : a.wf) (hb : b.wf) :
    sock_address_equal a b = true ↔
      a.family = b.family ∧
      (match a, b with
        | .inet ip p, .inet ip2 p2 => ip = ip2 ∧ p = p2
        | .in6 addr p, .in6 addr2 p2 => addr = addr2 ∧ p = p2
        | .unix path _, .unix path2 _ => path = path2
        | _, _ => False) := by
  cases a with
  | inet ip p =>
    cases b with
    | inet ip2 p2 => simp [sock_address_equal, SockAddress.family]
    | in6 addr2 p2 => simp [sock_address_equal, SockAddress.family]
    | unix path2 o2 => simp [sock_address_equal, SockAddress.family]
  | in6 addr p =>
    cases b with
    | inet ip2 p2 => simp [sock_address_equal, SockAddress.family]
    | in6 addr2 p2 =>
      simp [sock_address_equal, SockAddress.family, memcmp_eq,
        take_16_of_length addr ha.1, take_16_of_length addr2 hb.1]
    | unix path2 o2 => simp [sock_address_equal, SockAddress.family]
  | unix path o =>
    cases b with
    | inet ip2 p2 => simp [sock_address_equal, SockAddress.family]
    | in6 addr2 p2 => simp [sock_address_equal, SockAddress.family]
    | unix path2 o2 =>
      simp [sock_address_equal, SockAddress.family, strcmp_eq, c_str_of_wf path ha,
        c_str_of_wf path2 hb]

/-- Witness for C24: two UNIX values with the path "/a" and different owner flags
are equal. -/
theorem sock_address_equal_iff_witness :
    sock_address_equal (.unix [47, 97] true) (.unix [47, 97] false) = true ↔
      (SockAddress.unix [47, 97] true).family = (SockAddress.unix [47, 97] false).family ∧
      (match SockAddress.unix [47, 97] true, SockAddress.unix [47, 97] false with
        | .inet ip p, .inet ip2 p2 => ip = ip2 ∧ p = p2
        | .in6 addr p, .in6 addr2 p2 => addr = addr2 ∧ p = p2
        | .unix path _, .unix path2 _ => path = path2
        | _, _ => False) :=
  sock_address_equal_iff (.unix [47, 97] true) (.unix [47, 97] false) (by decide) (by decide)

/-- C25. Whenever `sock_address_from_bsd` returns a negative value, the output
address value is exactly what it was before the call. -/
theorem from_bsd_failure_leaves_output (a : SockAddress) (src : List Nat) (fromlen : Nat)
    (errno : Int) (hfail : (sock_address_from_bsd a src fromlen errno).ret < 0) :
    (sock_address_from_bsd a src fromlen errno).a = a := by
  have d1 : AF_INET ≠ AF_INET6 := by decide
  have d2 : AF_INET ≠ AF_LOCAL := by decide
  have d3 : AF_INET6 ≠ AF_LOCAL := by decide
  have z : ¬ ((0 : Int) < 0) := by decide
  unfold sock_address_from_bsd at hfail ⊢
  by_cases h1 : sa_family src = AF_INET
  · by_cases hl : fromlen < sizeof_sockaddr_in
    · simp [h1, hl]
    · simp [h1, hl] at hfail
  · by_cases h2 : sa_family src = AF_INET6
    · by_cases hl : fromlen < sizeof_sockaddr_in6
      · simp [h2, hl, d1.symm]
      · simp [h2, hl, d1.symm] at hfail
    · by_cases h3 : sa_family src = AF_LOCAL
      · by_cases hl : fromlen < sizeof_sockaddr_un
        · simp [h3, hl, d2.symm, d3.symm]
        · by_cases hz : 0 ∈ sun_path_scan src
          · simp [h3, hl, hz, d2.symm, d3.symm] at hfail
          · simp [h3, hl, hz, d2.symm, d3.symm]
      · simp [h1, h2, h3]

/-- Witness for C25: an `AF_INET` buffer with a length of 4 is rejected and the
previous UNIX value is still there. -/
theorem from_bsd_failure_leaves_output_witness :
    (sock_address_from_bsd (.unix [47, 97] true) [2, 0, 0, 80, 127, 0, 0, 1] 4 7).a
      = .unix [47, 97] true :=
  from_bsd_failure_leaves_output (.unix [47, 97] true) [2, 0, 0, 80, 127, 0, 0, 1] 4 7
    (by decide)

/-- C26 fails on the code: for an IN6 value `sock_address_to_bsd` reports 28 bytes
and, started on a destination of 16 bytes followed by other memory, overwrites the
12 bytes after it; for the UNIX path "a" it reports 4 bytes but clears 110 bytes, so
it overwrites the 94 bytes after the destination. In `socket_bind`, whose local
`addr` has 16 bytes, both conversions store beyond the local, so its behaviour is
undefined (`none`). Only an INET value stays within `sizeof(struct sockaddr)`. -/
theorem to_bsd_overruns_struct_sockaddr :
    sizeof_sockaddr = 16 ∧
    (sock_address_to_bsd (.in6 [0, 0, 0, 0, 0, 0, 0, 0, 0, 0, 0, 0, 0, 0, 0, 1] 80)
      (List.replicate 16 0 ++ List.replicate 12 255) 0 0).ret = 0 ∧
    (sock_address_to_bsd (.in6 [0, 0, 0, 0, 0, 0, 0, 0, 0, 0, 0, 0, 0, 0, 0, 1] 80)
      (List.replicate 16 0 ++ List.replicate 12 255) 0 0).psize = 28 ∧
    (sock_address_to_bsd (.in6 [0, 0, 0, 0, 0, 0, 0, 0, 0, 0, 0, 0, 0, 0, 0, 1] 80)
      (List.replicate 16 0 ++ List.replicate 12 255) 0 0).paddress.drop sizeof_sockaddr
      = [0, 0, 0, 0, 0, 0, 0, 1, 0, 0, 0, 0] ∧
    (sock_address_to_bsd (.unix [97] true)
      (List.replicate 16 0 ++ List.replicate 94 255) 0 0).ret = 0 ∧
    (sock_address_to_bsd (.unix [97] true)
      (List.replicate 16 0 ++ List.replicate 94 255) 0 0).psize = 4 ∧
    (sock_address_to_bsd (.unix [97] true)
      (List.replicate 16 0 ++ List.replicate 94 255) 0 0).paddress.drop sizeof_sockaddr
      = List.replicate 94 0 ∧
    socket_bind 5 (.in6 [0, 0, 0, 0, 0, 0, 0, 0, 0, 0, 0, 0, 0, 0, 0, 1] 80) ⟨0, [], []⟩
      = none ∧
    socket_bind 5 (.unix [97] true) ⟨0, [], []⟩ = none ∧
    socket_bind 5 (.inet 0x7f000001 80) ⟨0, [], []⟩
      = some (0, ⟨0, [.bind 5 [2, 0, 0, 80, 127, 0, 0, 1, 0, 0, 0, 0, 0, 0, 0, 0] 16], []⟩) ∧
    (sock_address_to_bsd (.inet 0x7f000001 80)
      (List.replicate 16 0 ++ List.replicate 12 255) 0 0).paddress.drop sizeof_sockaddr
      = List.replicate 12 255 := by
  decide

theorem ip6_group_text_mem_hex (b0 b1 : Nat) : ∀ c ∈ ip6_group_text b0 b1, c ∈ hex := by
  intro c hc
  unfold ip6_group_text at hc
  simp only at hc
  split at hc
  · simp at hc
  · exact hex_text_loop_mem _ _ c hc

theorem ip6_group_text_eq_nil_iff (b0 b1 : Nat) (h1 : b1 < 256) :
    ip6_group_text b0 b1 = [] ↔ b0 = 0 ∧ b1 = 0 := by
  unfold ip6_group_text
  simp only
  rw [ip6_group_val b0 b1 h1]
  by_cases hv : b0 * 65536 + b1 = 0
  · rw [if_pos hv]
    constructor
    · intro _; omega
    · intro _; rfl
  · rw [if_neg hv]
    constructor
    · intro h; exact absurd h (hex_text_ne_nil _ _)
    · intro h; exfalso; apply hv; rw [h.1, h.2]

theorem ip6_group_text_count_colon (b0 b1 : Nat) : (ip6_group_text b0 b1).count 58 = 0 := by
  rw [List.count_eq_zero]
  intro h
  have := ip6_group_text_mem_hex b0 b1 58 h
  revert this
  decide

theorem in6_result_eq_groups (MAX_PATH : Nat) (buf0 : Int) (m : Mem)
    (b0 b1 b2 b3 b4 b5 b6 b7 b8 b9 b10 b11 b12 b13 b14 b15 port : Nat)
    (hwf : (SockAddress.in6 [b0, b1, b2, b3, b4, b5, b6, b7, b8, b9, b10, b11, b12, b13, b14,
      b15] port).wf) (hsize : 54 ≤ MAX_PATH) :
    sock_address_to_string_result MAX_PATH buf0 m
        (.in6 [b0, b1, b2, b3, b4, b5, b6, b7, b8, b9, b10, b11, b12, b13, b14, b15] port) =
      List.intercalate [58] [ip6_group_text b0 b1, ip6_group_text b2 b3, ip6_group_text b4 b5,
        ip6_group_text b6 b7, ip6_group_text b8 b9, ip6_group_text b10 b11,
        ip6_group_text b12 b13, ip6_group_text b14 b15] ++ [58] ++ decimal port := by
  obtain ⟨_, hbytes, hport⟩ := hwf
  have htext : sock_address_text (.in6 [b0, b1, b2, b3, b4, b5, b6, b7, b8, b9, b10, b11,
      b12, b13, b14, b15] port) =
      List.intercalate [58] [ip6_group_text b0 b1, ip6_group_text b2 b3, ip6_group_text b4 b5,
        ip6_group_text b6 b7, ip6_group_text b8 b9, ip6_group_text b10 b11,
        ip6_group_text b12 b13, ip6_group_text b14 b15] ++ [58] ++ decimal port := by
    simp only [sock_address_text]
    rw [ip6_text_groups, unsigned_text_eq_decimal port (by omega)]
  have l0 := ip6_group_text_length_le b0 b1 (hbytes b0 (by simp)) (hbytes b1 (by simp))
  have l1 := ip6_group_text_length_le b2 b3 (hbytes b2 (by simp)) (hbytes b3 (by simp))
  have l2 := ip6_group_text_length_le b4 b5 (hbytes b4 (by simp)) (hbytes b5 (by simp))
  have l3 := ip6_group_text_length_le b6 b7 (hbytes b6 (by simp)) (hbytes b7 (by simp))
  have l4 := ip6_group_text_length_le b8 b9 (hbytes b8 (by simp)) (hbytes b9 (by simp))
  have l5 := ip6_group_text_length_le b10 b11 (hbytes b10 (by simp)) (hbytes b11 (by simp))
  have l6 := ip6_group_text_length_le b12 b13 (hbytes b12 (by simp)) (hbytes b13 (by simp))
  have l7 := ip6_group_text_length_le b14 b15 (hbytes b14 (by simp)) (hbytes b15 (by simp))
  have l8 := decimal_length_le 5 port (by decide) (by omega)
  rw [← htext]
  apply to_string_result_eq_text _ _ _ _ (by omega)
  rw [htext]
  simp only [List.intercalate, List.intersperse, List.flatten, List.length_append,
    List.length_singleton, List.length_nil, List.append_nil]
  omega

/-- C23. For every IN6 value, when the static buffer has room for 54 bytes, the
string that `sock_address_to_string` returns is the 8 groups of the 8 byte pairs
joined by ':' (7 separators, each one printed, none inside a group), then ':' and
the port in decimal; a group is empty exactly when both bytes of its pair are zero,
and a non-empty group is made of characters of the table "0123456789abcdef". -/
theorem in6_to_string_eight_groups (MAX_PATH : Nat) (buf0 : Int) (m : Mem) (addr : List Nat)
    (port : Nat) (hwf : (SockAddress.in6 addr port).wf) (hsize : 54 ≤ MAX_PATH) :
    sock_address_to_string_result MAX_PATH buf0 m (.in6 addr port) =
      List.intercalate [58] ((List.range 8).map (fun i =>
        ip6_group_text (byte_at addr (2 * i)) (byte_at addr (2 * i + 1))))
        ++ [58] ++ decimal port ∧
    ((List.range 8).map (fun i =>
        ip6_group_text (byte_at addr (2 * i)) (byte_at addr (2 * i + 1)))).length = 8 ∧
    (List.intercalate [58] ((List.range 8).map (fun i =>
        ip6_group_text (byte_at addr (2 * i)) (byte_at addr (2 * i + 1))))).count 58 = 7 ∧
    (∀ i : Nat, i < 8 →
      (ip6_group_text (byte_at addr (2 * i)) (byte_at addr (2 * i + 1)) = [] ↔
        byte_at addr (2 * i) = 0 ∧ byte_at addr (2 * i + 1) = 0) ∧
      (∀ c ∈ ip6_group_text (byte_at addr (2 * i)) (byte_at addr (2 * i + 1)), c ∈ hex)) ∧
    (∀ c ∈ decimal port, 48 ≤ c ∧ c ≤ 57) := by
  have hwf2 := hwf
  obtain ⟨hlen, hbytes, hport⟩ := hwf
  have hb : ∀ k, byte_at addr k < 256 := fun k => byte_at_lt_256 addr k hbytes
  have hdec : ∀ c ∈ decimal port, 48 ≤ c ∧ c ≤ 57 := by
    rw [← unsigned_text_eq_decimal port (by omega)]
    exact unsigned_text_chars port
  have hgroups : ∀ i : Nat, i < 8 →
      (ip6_group_text (byte_at addr (2 * i)) (byte_at addr (2 * i + 1)) = [] ↔
        byte_at addr (2 * i) = 0 ∧ byte_at addr (2 * i + 1) = 0) ∧
      (∀ c ∈ ip6_group_text (byte_at addr (2 * i)) (byte_at addr (2 * i + 1)), c ∈ hex) :=
    fun i _ => ⟨ip6_group_text_eq_nil_iff _ _ (hb _), ip6_group_text_mem_hex _ _⟩
  obtain ⟨b0, b1, b2, b3, b4, b5, b6, b7, b8, b9, b10, b11, b12, b13, b14, b15, rfl⟩ :=
    list_length_16 addr hlen
  have hmap : (List.range 8).map (fun i =>
      ip6_group_text (byte_at [b0, b1, b2, b3, b4, b5, b6, b7, b8, b9, b10, b11, b12, b13,
        b14, b15] (2 * i)) (byte_at [b0, b1, b2, b3, b4, b5, b6, b7, b8, b9, b10, b11, b12,
        b13, b14, b15] (2 * i + 1))) =
      [ip6_group_text b0 b1, ip6_group_text b2 b3, ip6_group_text b4 b5,
        ip6_group_text b6 b7, ip6_group_text b8 b9, ip6_group_text b10 b11,
        ip6_group_text b12 b13, ip6_group_text b14 b15] := by
    simp [List.range, List.range.loop, byte_at]
  refine ⟨?_, by simp, ?_, hgroups, hdec⟩
  · rw [hmap]
    exact in6_result_eq_groups MAX_PATH buf0 m _ _ _ _ _ _ _ _ _ _ _ _ _ _ _ _ port hwf2 hsize
  · rw [hmap]
    simp only [List.intercalate, List.intersperse, List.flatten, List.count_append,
      List.append_nil, ip6_group_text_count_colon]
    decide

/-- Witness for C23: the address 2001:db8::1 with port 80 in a buffer of 260 bytes
prints as "00001:d00b8::::::00001:80". -/
theorem in6_to_string_eight_groups_witness :
    sock_address_to_string_result 260 0 (fun _ => 255)
        (.in6 [0x20, 0x01, 0x0d, 0xb8, 0, 0, 0, 0, 0, 0, 0, 0, 0, 0, 0, 1] 80) =
      [48, 48, 48, 48, 49, 58, 100, 48, 48, 98, 56, 58, 58, 58, 58, 58, 58, 48, 48, 48, 48,
        49, 58, 56, 48] :=
  (in6_to_string_eight_groups 260 0 (fun _ => 255)
    [0x20, 0x01, 0x0d, 0xb8, 0, 0, 0, 0, 0, 0, 0, 0, 0, 0, 0, 1] 80 (by decide)
    (by decide)).1.trans (by rw [show decimal 80 = [56, 48] by simp [decimal]]; decide)

end Sockets
